import Mathlib

/-!
Connector service: connection state machine, call recovery and manager proxy.

A shallow embedding of `pkg/client/connector/service.go` and
`pkg/client/connector/userd_grpc/service_proxy.go`.

* Pointers that may be nil are `Option`s.
* External collaborators whose code is not part of the embedded files (the
  cluster tracker, the traffic manager, the bridge, the usage reporter) are
  gathered in the record `Collab`; every theorem quantifies over it.
* Side effects on collaborators are recorded, in program order, in the `trace`
  field of the service state.
* A Go function body either returns or panics: `Completion`.
-/

namespace Connector

/-! ## Panics -/

/-- The value carried by a Go panic (what `recover()` yields when it is not nil). -/
abbrev Fault := String

/-- How a Go function body ends: it returns a value, or a panic unwinds out of it. -/
inductive Completion (α : Type) where
  | returned (a : α)
  | panicked (r : Fault)
  deriving DecidableEq, Repr

/-- Sequencing of two bodies: a panic in the first one skips the second. -/
def Completion.bind {α β : Type} (x : Completion α) (f : α → Completion β) : Completion β :=
  match x with
  | .returned a => f a
  | .panicked r => .panicked r

/-! ## Data model -/

/-- The canonical cluster configuration `k8sConfig`.  `service.go` reads the fields `Context`
and `Server`; the remaining connection-relevant data (namespace, flag map) is kept in `rest`. -/
structure k8sConfig where
  Context : String
  Server : String
  rest : List (String × String)
  deriving DecidableEq, Repr

/-- The cluster tracker `k8sCluster`: it embeds its `k8sConfig` and holds the namespace filters
that `setMappedNamespaces` updates.  `addr` stands for the identity of the Go object. -/
structure k8sCluster where
  addr : Nat
  k8sConfig : k8sConfig
  mappedNamespaces : List String
  deriving DecidableEq, Repr

/-- The raw protocol client `manager.ManagerClient` held by a traffic manager. -/
abbrev managerClient := Nat

/-- The traffic manager (coordinator client); `service.go` reads `managerClient` and `sshPort`. -/
structure trafficManager where
  addr : Nat
  managerClient : Option managerClient
  sshPort : Nat
  deriving DecidableEq, Repr

/-- The bridge, as built by `newBridge(s.daemon, tmgr.sshPort)`. -/
structure bridge where
  sshPort : Nat
  deriving DecidableEq, Repr

/-- The enum `rpc.ConnectInfo_ErrType`. -/
inductive ConnectInfo_ErrType where
  | UNSPECIFIED
  | ALREADY_CONNECTED
  | DISCONNECTING
  | MUST_RESTART
  | CLUSTER_FAILED
  | BRIDGE_FAILED
  | TRAFFIC_MANAGER_FAILED
  deriving DecidableEq, Repr

/-- An element of `ConnectInfo.IngressInfos`. -/
abbrev IngressInfo := String

/-- The message `rpc.ConnectInfo`.  The defaults are Go's zero values, so a composite literal
that names only some fields leaves the others at these defaults. -/
structure ConnectInfo where
  Error : ConnectInfo_ErrType := .UNSPECIFIED
  ErrorText : String := ""
  ClusterOk : Bool := false
  ClusterContext : String := ""
  ClusterServer : String := ""
  ClusterId : String := ""
  BridgeOk : Bool := false
  IngressInfos : List IngressInfo := []
  Agents : Option (List String) := none
  Intercepts : Option (List String) := none
  deriving DecidableEq, Repr

/-- The message `rpc.ConnectRequest`. -/
structure ConnectRequest where
  KubeFlags : List (String × String)
  MappedNamespaces : List String
  deriving DecidableEq, Repr

/-- Modelled from the spec: `trafficManager.setStatus` is not among the embedded files; the
coordinator "contributes its own status fields to the outcome", here the agent and intercept
snapshots of `ConnectInfo`. -/
structure tmStatus where
  Agents : Option (List String)
  Intercepts : Option (List String)
  deriving DecidableEq, Repr

/-- Side effects of `service.connect` on its collaborators, recorded in program order. -/
inductive Effect where
  | scoutReport (action : String)
  | scoutSetMetadatum (key : String)
  | setMappedNamespaces (mns : List String)
  | trackKCluster
  | newTrafficManager
  | waitUntilStarted
  | SetClient (client : Option managerClient)
  | bridgeStart
  | cancel
  deriving DecidableEq, Repr

/-- The state of the connector: the fields `cluster`, `bridge`, `trafficMgr` of `service`
(guarded by `connectMu`), the client published in `managerProxy`, and the trace of effects
(in which `Effect.cancel` records an invocation of `s.cancel`). -/
structure service where
  cluster : Option k8sCluster
  bridge : Option bridge
  trafficMgr : Option trafficManager
  managerProxy : Option managerClient
  trace : List Effect
  deriving DecidableEq, Repr

/-- The collaborators `service.connect` calls and whose code is outside the embedded files.
An `Except String _` result is Go's `(value, error)` with the error's text; an `Option String`
result is a Go `error`.  `checkNil` and `setStatusNil` say what `check` and `setStatus` do when
invoked on a nil receiver: they return a value or they panic. -/
structure Collab where
  newK8sConfig : List (String × String) → Except String k8sConfig
  equals : k8sConfig → k8sConfig → Bool
  trackKCluster : k8sConfig → List String → Except String k8sCluster
  findNumK8sObjects : k8sCluster → List (String × Nat)
  getClusterId : k8sCluster → String
  detectIngressBehavior : k8sCluster → List IngressInfo
  newTrafficManager : k8sCluster → Except String trafficManager
  waitUntilStarted : trafficManager → Option String
  start : bridge → Option String
  check : bridge → Bool
  checkNil : Completion Bool
  setStatus : trafficManager → ConnectInfo → tmStatus
  setStatusNil : ConnectInfo → Completion tmStatus

/-! ## Namespace filter normalisation -/

/-- The statements `if len(mns) == 1 && mns[0] == "all" { mns = nil }; sort.Strings(mns)`,
which `service.connect` runs on the request's `MappedNamespaces` (lines 212-215 and 251-254).
`sort.Strings` orders strings by their bytes, which for UTF-8 text is the order by code points
used here; equal strings being indistinguishable, the sorted result does not depend on the
sorting algorithm. -/
def normalizeMappedNamespaces (mns : List String) : List String :=
  let mns := if mns.length == 1 && mns.head? == some "all" then [] else mns
  mns.insertionSort (· ≤ ·)

/-- Modelled from the spec: `k8sCluster.setMappedNamespaces` is not among the embedded files; it
applies the filter set "as a live update to the existing cluster tracker". -/
def k8sCluster.setMappedNamespaces (kc : k8sCluster) (mns : List String) : k8sCluster :=
  { kc with mappedNamespaces := mns }

/-! ## `service.connect` -/

/-- Appends effects to the trace. -/
def service.emit (s : service) (es : List Effect) : service :=
  { s with trace := s.trace ++ es }

/-- The method call `s.bridge.check(c)`. -/
def bridgeCheck (K : Collab) (br : Option bridge) : Completion Bool :=
  match br with
  | some b => .returned (K.check b)
  | none => K.checkNil

/-- The method call `s.trafficMgr.setStatus(c, ret)`, which fills fields of `ret`. -/
def trafficMgrSetStatus (K : Collab) (tm : Option trafficManager) (ret : ConnectInfo) :
    Completion ConnectInfo :=
  let st : Completion tmStatus := match tm with
    | some t => .returned (K.setStatus t ret)
    | none => K.setStatusNil ret
  st.bind fun st => .returned { ret with Agents := st.Agents, Intercepts := st.Intercepts }

/-- The composite literal `&rpc.ConnectInfo{Error: tag, ClusterOk: true, ...}` followed by
`s.trafficMgr.setStatus(c, ret); return ret`, which occurs three times in `service.connect`
(lines 218-228, 230-240, 325-335) with `s.cluster` known to be non-nil. -/
def statusInfo (K : Collab) (tag : ConnectInfo_ErrType) (cluster : k8sCluster)
    (br : Option bridge) (tm : Option trafficManager) : Completion ConnectInfo :=
  (bridgeCheck K br).bind fun bridgeOk =>
    trafficMgrSetStatus K tm
      { Error := tag
        ClusterOk := true
        ClusterContext := cluster.k8sConfig.Context
        ClusterServer := cluster.k8sConfig.Server
        ClusterId := K.getClusterId cluster
        BridgeOk := bridgeOk
        IngressInfos := K.detectIngressBehavior cluster }

/-- The tail of `service.connect` from line 250 on: the first call to Connect. -/
def establish (K : Collab) (s : service) (cr : ConnectRequest) (cfg : k8sConfig) :
    service × Completion ConnectInfo :=
  let mappedNamespaces := normalizeMappedNamespaces cr.MappedNamespaces
  let s := s.emit [.scoutReport "connect", .trackKCluster]
  match K.trackKCluster cfg mappedNamespaces with
  | .error err =>
    (s.emit [.cancel], .returned { Error := .CLUSTER_FAILED, ErrorText := err })
  | .ok cluster =>
    let s := { s with cluster := some cluster }
    let k8sObjectMap := K.findNumK8sObjects cluster
    let s := s.emit ([.scoutSetMetadatum "cluster_id"]
      ++ k8sObjectMap.map (fun kv => .scoutSetMetadatum kv.1)
      ++ [.scoutSetMetadatum "mapped_namespaces", .scoutReport "connecting_traffic_manager",
          .newTrafficManager])
    match K.newTrafficManager cluster with
    | .error err =>
      (s.emit [.cancel], .returned { Error := .TRAFFIC_MANAGER_FAILED, ErrorText := err })
    | .ok tmgr =>
      let s := { s with trafficMgr := some tmgr }
      let s := s.emit [.waitUntilStarted]
      match K.waitUntilStarted tmgr with
      | some err =>
        (s.emit [.cancel], .returned { Error := .TRAFFIC_MANAGER_FAILED, ErrorText := err })
      | none =>
        let s := { s with managerProxy := tmgr.managerClient }
        let s := s.emit [.SetClient tmgr.managerClient]
        let br : bridge := { sshPort := tmgr.sshPort }
        let s := s.emit [.bridgeStart]
        match K.start br with
        | some err =>
          (s.emit [.cancel], .returned { Error := .BRIDGE_FAILED, ErrorText := err })
        | none =>
          let s := { s with bridge := some br }
          let s := s.emit [.scoutReport "finished_connecting_traffic_manager"]
          (s, statusInfo K .UNSPECIFIED cluster s.bridge s.trafficMgr)

/-- The method `service.connect`: the new state and the returned `*rpc.ConnectInfo` (or the
panic that unwinds out of the method; `connectMu` is released either way). -/
def connect (K : Collab) (s : service) (cr : ConnectRequest) :
    service × Completion ConnectInfo :=
  match K.newK8sConfig cr.KubeFlags with
  | .error err => (s, .returned { Error := .CLUSTER_FAILED, ErrorText := err })
  | .ok cfg =>
    match s.cluster with
    | some cluster =>
      if K.equals cluster.k8sConfig cfg then
        if cr.MappedNamespaces.length > 0 then
          let mns := normalizeMappedNamespaces cr.MappedNamespaces
          let cluster := cluster.setMappedNamespaces mns
          let s := { s with cluster := some cluster }
          let s := s.emit [.setMappedNamespaces mns]
          (s, statusInfo K .ALREADY_CONNECTED cluster s.bridge s.trafficMgr)
        else
          (s, statusInfo K .ALREADY_CONNECTED cluster s.bridge s.trafficMgr)
      else
        (s, statusInfo K .MUST_RESTART cluster s.bridge s.trafficMgr)
    | none =>
      match s.bridge with
      | some _ => (s, .returned { Error := .DISCONNECTING })
      | none => establish K s cr cfg

/-- Number of invocations of `s.cancel` recorded in a trace. -/
def cancelCalls (tr : List Effect) : Nat := tr.count .cancel

/-- The session invariant of the data model: tracker, bridge and traffic manager are all absent
or all present. -/
def sessionAllOrNone (s : service) : Bool :=
  (s.cluster.isNone && s.bridge.isNone && s.trafficMgr.isNone) ||
  (s.cluster.isSome && s.bridge.isSome && s.trafficMgr.isSome)

/-- A sequence of calls of `service.connect`, each with the behaviour its collaborators show
during that call; `connectMu` makes the calls run one after the other. -/
def connectAll (s : service) : List (Collab × ConnectRequest) → service
  | [] => s
  | (K, cr) :: rest => connectAll (connect K s cr).1 rest

/-- The three outcome tags that report a failed establishment. -/
def ConnectInfo_ErrType.isFailure : ConnectInfo_ErrType → Bool
  | .CLUSTER_FAILED => true
  | .BRIDGE_FAILED => true
  | .TRAFFIC_MANAGER_FAILED => true
  | _ => false

/-! ## Call recovery and the operations of `service` -/

/-- A Go `error` value that is not nil.  `EOF` is the sentinel `io.EOF`, which the code
recognises by identity; every other error is described by its text. -/
inductive GoError where
  | EOF
  | other (text : String)
  deriving DecidableEq, Repr

/-- The library function `derror.PanicToError`: nil for a nil recovered value, otherwise the
error `conv r` built from the panic value. -/
def PanicToError (conv : Fault → GoError) (r : Option Fault) : Option GoError :=
  r.map conv

/-- The function `callRecovery(c, r, err)`: the returned error, and the errors it logs with
`dlog.Errorf` in order. -/
def callRecovery (conv : Fault → GoError) (r : Option Fault) (err : Option GoError) :
    Option GoError × List GoError :=
  match PanicToError conv r with
  | some perr =>
    match err with
    | none => (some perr, [perr])
    | some e => (some e, [perr, e])
  | none =>
    match err with
    | none => (none, [])
    | some e => (some e, [e])

/-- What the caller of an operation of the service gets: the named results `(result, err)`, or a
panic that leaves the operation. -/
inductive Reply (α : Type) where
  | returned (result : Option α) (err : Option GoError)
  | propagated (r : Fault)
  deriving DecidableEq, Repr

/-- A method body with named results `(result, err)` run under
`defer func() { err = callRecovery(c, recover(), err) }()`: when the body panics the results
still hold their zero values when the deferred function runs. -/
def recovered {α : Type} (conv : Fault → GoError)
    (body : Completion (Option α × Option GoError)) : Reply α :=
  match body with
  | .returned (result, err) => .returned result (callRecovery conv none err).1
  | .panicked r => .returned none (callRecovery conv (some r) none).1

/-- The panic value of a nil pointer dereference. -/
def nilDereference : Fault := "runtime error: invalid memory address or nil pointer dereference"

/-- The message `rpc.InterceptResult`; `Error` is the code of `rpc.InterceptError`, zero being
`InterceptError_UNSPECIFIED`. -/
structure InterceptResult where
  Error : Nat := 0
  ErrorText : String := ""
  deriving DecidableEq, Repr

/-- The message `common.VersionInfo`. -/
structure VersionInfo where
  ApiVersion : Nat
  Version : String
  deriving DecidableEq, Repr

/-- What the operations of `service` other than Connect use from outside the embedded files.
The methods of the traffic manager are called on `s.trafficMgr`, which may be nil, and may
panic. -/
structure OpsCollab where
  APIVersion : Nat
  Version : String
  interceptStatus : service → Nat × String
  addIntercept : Option trafficManager → String →
    Completion (Option InterceptResult × Option GoError)
  removeIntercept : Option trafficManager → String → Completion (Option GoError)
  deploymentInfoSnapshot : trafficManager → String → List String
  uninstall : Option trafficManager → String → Completion (Option String × Option GoError)

/-- The method `service.Version`. -/
def service.Version (O : OpsCollab) (_s : service) : Reply VersionInfo :=
  .returned (some { ApiVersion := O.APIVersion, Version := O.Version }) none

/-- The method `service.Connect`: `service.connect` under call recovery. -/
def service.Connect (conv : Fault → GoError) (K : Collab) (s : service) (cr : ConnectRequest) :
    service × Reply ConnectInfo :=
  let r := connect K s cr
  (r.1, recovered conv (r.2.bind fun ci => .returned (some ci, none)))

/-- The method `service.CreateIntercept`. -/
def service.CreateIntercept (conv : Fault → GoError) (O : OpsCollab) (s : service)
    (ir : String) : Reply InterceptResult :=
  let (ie, is) := O.interceptStatus s
  if ie ≠ 0 then
    .returned (some { Error := ie, ErrorText := is }) none
  else
    recovered conv (O.addIntercept s.trafficMgr ir)

/-- The method `service.RemoveIntercept`, `name` being `rr.Name`. -/
def service.RemoveIntercept (conv : Fault → GoError) (O : OpsCollab) (s : service)
    (name : String) : Reply InterceptResult :=
  let (ie, is) := O.interceptStatus s
  if ie ≠ 0 then
    .returned (some { Error := ie, ErrorText := is }) none
  else
    recovered conv ((O.removeIntercept s.trafficMgr name).bind fun err =>
      .returned (some {}, err))

/-- The method `service.List`.  It reads the field `s.trafficMgr.managerClient`, which
dereferences `s.trafficMgr`, and it has no deferred call recovery. -/
def service.List (O : OpsCollab) (s : service) (lr : String) : Reply (List String) :=
  match s.trafficMgr with
  | none => .propagated nilDereference
  | some tm =>
    match tm.managerClient with
    | none => .returned (some []) none
    | some _ => .returned (some (O.deploymentInfoSnapshot tm lr)) none

/-- The method `service.Uninstall`. -/
def service.Uninstall (conv : Fault → GoError) (O : OpsCollab) (s : service) (ur : String) :
    Reply String :=
  recovered conv (O.uninstall s.trafficMgr ur)

/-- The method `service.Quit`. -/
def service.Quit (s : service) : service × Reply Unit :=
  (s.emit [.cancel], .returned (some ()) none)

/-! ## Streaming subscriptions of the manager proxy -/

/-- The caller's server stream `srv` of a subscription: `Send n m` is the result of the call of
`srv.Send(m)` made after `n` earlier ones, and `ctxErr n` is the value of `srv.Context().Err()`
when it is read after the Recv that follows `n` sends. -/
structure ServerStream (M : Type) where
  Send : Nat → M → Option GoError
  ctxErr : Nat → Option GoError

/-- The `for` loop shared, statement for statement, by `mgrProxy.WatchAgents`,
`WatchIntercepts`, `WatchDial` and `WatchClusterInfo`.  `cli` lists the results the
coordinator's stream gives to successive calls of `cli.Recv()`; when it is used up the next Recv
blocks.  The result is the list of messages passed to `srv.Send`, and the returned error: `none`
while the loop is still blocked in Recv, `some none` for a nil error. -/
def watchLoop {M : Type} (srv : ServerStream M) :
    List (Except GoError M) → Nat → List M × Option (Option GoError)
  | [], _ => ([], none)
  | .error err :: _, n =>
    if err = .EOF ∨ (srv.ctxErr n).isSome then ([], some none) else ([], some (some err))
  | .ok m :: rest, n =>
    match srv.Send n m with
    | some err => ([m], some (some err))
    | none => ((watchLoop srv rest (n + 1)).1.cons m, (watchLoop srv rest (n + 1)).2)

/-- A subscription method of `mgrProxy`: `opened` is the result of opening the matching stream
on the coordinator client, `p.client.WatchX(srv.Context(), arg, p.callOptions...)`. -/
def watch {M : Type} (opened : Except GoError (List (Except GoError M)))
    (srv : ServerStream M) : List M × Option (Option GoError) :=
  match opened with
  | .error err => ([], some (some err))
  | .ok cli => watchLoop srv cli 0

/-- The streams the coordinator client opens for a session (`arg`). -/
structure ManagerClient where
  WatchAgents : String → Except GoError (List (Except GoError String))
  WatchIntercepts : String → Except GoError (List (Except GoError String))
  WatchDial : String → Except GoError (List (Except GoError String))
  WatchClusterInfo : String → Except GoError (List (Except GoError String))

/-- The proxy `mgrProxy` of `service_proxy.go`, holding the coordinator client; `client` is an
interface value, which may be nil. -/
structure mgrProxy where
  client : Option ManagerClient

/-- A method call on `p.client`: on a nil interface value it panics. -/
def mgrProxy.callClient {α : Type} (p : mgrProxy) (f : ManagerClient → α) : Completion α :=
  match p.client with
  | some client => .returned (f client)
  | none => .panicked nilDereference

/-- The method `mgrProxy.WatchAgents`. -/
def mgrProxy.WatchAgents (p : mgrProxy) (arg : String) (srv : ServerStream String) :
    Completion (List String × Option (Option GoError)) :=
  p.callClient fun client => watch (client.WatchAgents arg) srv

/-- The method `mgrProxy.WatchIntercepts`. -/
def mgrProxy.WatchIntercepts (p : mgrProxy) (arg : String) (srv : ServerStream String) :
    Completion (List String × Option (Option GoError)) :=
  p.callClient fun client => watch (client.WatchIntercepts arg) srv

/-- The method `mgrProxy.WatchDial`. -/
def mgrProxy.WatchDial (p : mgrProxy) (arg : String) (srv : ServerStream String) :
    Completion (List String × Option (Option GoError)) :=
  p.callClient fun client => watch (client.WatchDial arg) srv

/-- The method `mgrProxy.WatchClusterInfo`. -/
def mgrProxy.WatchClusterInfo (p : mgrProxy) (arg : String) (srv : ServerStream String) :
    Completion (List String × Option (Option GoError)) :=
  p.callClient fun client => watch (client.WatchClusterInfo arg) srv

/-- The method `mgrProxy.CreateIntercept`: the nil result and the error it builds with
`errors.New`. -/
def mgrProxy.CreateIntercept (_p : mgrProxy) (_arg : String) : Option String × Option GoError :=
  (none, some (.other "must call connector.CreateIntercept instead of manager.CreateIntercept"))

/-- The method `mgrProxy.RemoveIntercept`. -/
def mgrProxy.RemoveIntercept (_p : mgrProxy) (_arg : String) : Option Unit × Option GoError :=
  (none, some (.other "must call connector.RemoveIntercept instead of manager.RemoveIntercept"))

/-- The method `mgrProxy.WatchLookupHost`. -/
def mgrProxy.WatchLookupHost (_p : mgrProxy) (_arg : String) (_server : ServerStream String) :
    Option GoError :=
  some (.other ("must call manager.WatchLookupHost from an agent (intercepted Pod), " ++
    "not from a client (workstation)"))

/-- The method `mgrProxy.WatchLogLevel`. -/
def mgrProxy.WatchLogLevel (_p : mgrProxy) (_e : Unit) (_server : ServerStream String) :
    Option GoError :=
  some (.other ("must call manager.WatchLogLevel from an agent (intercepted Pod), " ++
    "not from a client (workstation)"))

/-! ## The call context -/

/-- A `context.Context` as `callCtx.Deadline` reads it: the results `(deadline, ok)` of its
method `Deadline()`, an instant of `time.Time` being counted in nanoseconds. -/
structure GoContext where
  Deadline : Int × Bool
  deriving DecidableEq, Repr

/-- The type `callCtx`: the embedded context of the service and the context of the caller. -/
structure callCtx where
  Context : GoContext
  caller : GoContext
  deriving DecidableEq, Repr

/-- The method `callCtx.Deadline`. -/
def callCtx.Deadline (c : callCtx) : Int × Bool :=
  if c.Context.Deadline.2 then (c.Context.Deadline.1, true) else c.caller.Deadline

/-! ## The tunnel of the manager proxy

`mgrProxy.Tunnel` starts four goroutines.  Each direction of the tunnel is a `recvLoop`, an
unbuffered channel and a `sendLoop`.  The goroutines are embedded as a transition system: a
state holds the point each loop has reached, and a step is one atomic move of one loop (a
call of Recv or Send that returns, a communication on the channel, or leaving a `select` through
`ctx.Done()`).  Every interleaving of the goroutines is a list of steps. -/

/-- The payload frame `*managerrpc.TunnelMessage` (never nil when Recv returns a nil error). -/
abbrev Frame := String

/-- Where a `recvLoop` is: about to call `in.Recv()`, in the `select` offering `payload` on
`out`, or returned. -/
inductive recvState where
  | receiving
  | offering (payload : Frame)
  | ended
  deriving DecidableEq, Repr

/-- Where a `sendLoop` is: in the `select` waiting for `ctx.Done()` or a payload on `in`, about
to call `out.Send(payload)`, or returned. -/
inductive sendState where
  | selecting
  | sending (payload : Frame)
  | ended
  deriving DecidableEq, Repr

/-- One direction of the tunnel.  `incoming` lists the results the source endpoint gives to
the coming calls of `in.Recv()` (when it is used up, Recv blocks); `sendErr n` is the result of
the call of `out.Send` made after `n` earlier ones; `read` and `passed` record the frames read
by the `recvLoop` and the frames passed to `out.Send` by the `sendLoop`; `closeSent` records
the deferred `CloseSend()` of a destination that has one. -/
structure Direction where
  incoming : List (Except GoError Frame)
  sendErr : Nat → Option GoError
  hasCloseSend : Bool
  recvLoop : recvState
  sendLoop : sendState
  read : List Frame
  passed : List Frame
  closeSent : Bool

/-- The moves of the two loops of a direction. -/
inductive PumpStep where
  | recv
  | handOver
  | recvCancelled
  | sendCancelled
  | send
  deriving DecidableEq, Repr

/-- One move of a direction, `none` when the move is not possible in the state.
* `recv`: `in.Recv()` returns; on an error the `recvLoop` returns, otherwise it enters the
  `select`.
* `handOver`: the communication `out <- payload` of the `recvLoop` with `payload := <-in` of the
  `sendLoop`; the payload is not nil.
* `recvCancelled`, `sendCancelled`: the case `<-ctx.Done()` of the `select`, with `return`.
* `send`: `out.Send(payload)` returns; on an error the `sendLoop` returns.
When the `sendLoop` returns, its deferred function calls `CloseSend()` if the destination has
it. -/
def Direction.step (ctxDone : Bool) (d : Direction) : PumpStep → Option Direction
  | .recv =>
    match d.recvLoop, d.incoming with
    | .receiving, .ok payload :: rest =>
      some { d with incoming := rest, read := d.read ++ [payload], recvLoop := .offering payload }
    | .receiving, .error _ :: rest => some { d with incoming := rest, recvLoop := .ended }
    | _, _ => none
  | .handOver =>
    match d.recvLoop, d.sendLoop with
    | .offering payload, .selecting =>
      some { d with recvLoop := .receiving, sendLoop := .sending payload }
    | _, _ => none
  | .recvCancelled =>
    match d.recvLoop with
    | .offering _ => if ctxDone then some { d with recvLoop := .ended } else none
    | _ => none
  | .sendCancelled =>
    match d.sendLoop with
    | .selecting =>
      if ctxDone then some { d with sendLoop := .ended, closeSent := d.hasCloseSend } else none
    | _ => none
  | .send =>
    match d.sendLoop with
    | .sending payload =>
      match d.sendErr d.passed.length with
      | some _ =>
        some { d with passed := d.passed ++ [payload], sendLoop := .ended,
                      closeSent := d.hasCloseSend }
      | none => some { d with passed := d.passed ++ [payload], sendLoop := .selecting }
    | _ => none

/-- The state of a call of `mgrProxy.Tunnel` after the four `go` statements: whether `ctx` is
done, the direction from the manager's stream to the caller (`recvLoop` on `fhManager`,
`sendLoop` on `fhClient`), the direction from the caller to the manager, and whether
`wg.Wait()` has returned, so that Tunnel has returned nil. -/
structure TunnelState where
  ctxDone : Bool
  mgrToClient : Direction
  clientToMgr : Direction
  returned : Bool

/-- The moves of a running tunnel: the caller's context ends, a move in one direction, or
`wg.Wait()` returns. -/
inductive TunnelStep where
  | cancel
  | mgrToClient (a : PumpStep)
  | clientToMgr (a : PumpStep)
  | wait
  deriving DecidableEq, Repr

/-- All four loops have returned (each has called `wg.Done()`). -/
def TunnelState.allEnded (t : TunnelState) : Bool :=
  t.mgrToClient.recvLoop == .ended && t.mgrToClient.sendLoop == .ended &&
  t.clientToMgr.recvLoop == .ended && t.clientToMgr.sendLoop == .ended

/-- One move of the tunnel, `none` when the move is not possible. -/
def TunnelState.step (t : TunnelState) : TunnelStep → Option TunnelState
  | .cancel => some { t with ctxDone := true }
  | .mgrToClient a => (t.mgrToClient.step t.ctxDone a).map fun d => { t with mgrToClient := d }
  | .clientToMgr a => (t.clientToMgr.step t.ctxDone a).map fun d => { t with clientToMgr := d }
  | .wait => if t.allEnded && !t.returned then some { t with returned := true } else none

/-- A sequence of moves. -/
def TunnelState.run (t : TunnelState) : List TunnelStep → Option TunnelState
  | [] => some t
  | a :: rest => (t.step a).bind fun t2 => t2.run rest

/-- A direction as the `go` statements start it. -/
def Direction.start (incoming : List (Except GoError Frame)) (sendErr : Nat → Option GoError)
    (hasCloseSend : Bool) : Direction :=
  { incoming := incoming, sendErr := sendErr, hasCloseSend := hasCloseSend,
    recvLoop := .receiving, sendLoop := .selecting, read := [], passed := [],
    closeSent := false }

/-- The method `mgrProxy.Tunnel` up to `wg.Wait()`: when the stream to the manager cannot be
opened it returns the error at once; otherwise the four loops are started.  `fromMgr` and
`fromClient` are what `fhManager.Recv()` and `fhClient.Recv()` will return, `mgrSend` and
`clientSend` what `fhManager.Send` and `fhClient.Send` will return; only `fhManager`, a client
stream, has `CloseSend`. -/
def mgrProxy.Tunnel (opened : Option GoError)
    (fromMgr fromClient : List (Except GoError Frame))
    (mgrSend clientSend : Nat → Option GoError) : Except GoError TunnelState :=
  match opened with
  | some err => .error err
  | none => .ok
    { ctxDone := false
      mgrToClient := Direction.start fromMgr clientSend false
      clientToMgr := Direction.start fromClient mgrSend true
      returned := false }

/-- The moves other than the end of the caller's context that are possible in no direction. -/
def TunnelState.quiescent (t : TunnelState) : Prop :=
  ∀ a : TunnelStep, a ≠ .cancel → t.step a = none

/-- The frame a `sendLoop` holds between the channel and `out.Send`. -/
def sendState.inflight : sendState → List Frame
  | .sending payload => [payload]
  | _ => []

/-- The frame a `recvLoop` holds between `in.Recv` and the channel. -/
def recvState.offered : recvState → List Frame
  | .offering payload => [payload]
  | _ => []

/-- The invariant of a direction started on the source results `src` with the send results
`se`: the frames read are the frames passed to Send, then the frame the `sendLoop` holds, then
the frame the `recvLoop` holds (after the `recvLoop` has returned: at most a frame it dropped
because `ctx` was done); the frames read are the first results of the source; the `sendLoop`
returns only when `ctx` is done or a Send failed; and the `recvLoop` returns only when `ctx` is
done or a Recv failed. -/
structure Direction.Inv (src : List (Except GoError Frame)) (se : Nat → Option GoError)
    (ctxDone : Bool) (d : Direction) : Prop where
  sendErr_eq : d.sendErr = se
  frames : ∃ tail, d.read = d.passed ++ d.sendLoop.inflight ++ tail ∧
    (d.recvLoop ≠ .ended → tail = d.recvLoop.offered) ∧
    (d.recvLoop = .ended → ctxDone = false → tail = [])
  source : ∃ rest, src = d.read.map .ok ++ rest ∧ (d.recvLoop ≠ .ended → rest = d.incoming)
  sender : d.sendLoop = .ended → ctxDone = true ∨ ∃ n, se n ≠ none
  receiver : d.recvLoop = .ended → ctxDone = true ∨ ∃ e, Except.error e ∈ src

/-- The invariant of a running tunnel: both directions satisfy theirs, and Tunnel has returned
only if all four loops have. -/
structure TunnelState.Inv (fromMgr fromClient : List (Except GoError Frame))
    (mgrSend clientSend : Nat → Option GoError) (t : TunnelState) : Prop where
  mgrToClient : Direction.Inv fromMgr clientSend t.ctxDone t.mgrToClient
  clientToMgr : Direction.Inv fromClient mgrSend t.ctxDone t.clientToMgr
  waited : t.returned = true → t.allEnded = true

/-- A sequence of moves of one direction. -/
def Direction.run (ctxDone : Bool) : Direction → List PumpStep → Option Direction
  | d, [] => some d
  | d, a :: rest => (d.step ctxDone a).bind fun d2 => Direction.run ctxDone d2 rest

/-- The moves by which the two loops, both waiting, take the coming results of the source one
after the other: a frame is read, handed over and sent; the first error ends the `recvLoop`. -/
def relaySteps : List (Except GoError Frame) → List PumpStep
  | [] => []
  | .ok _ :: rest => [.recv, .handOver, .send] ++ relaySteps rest
  | .error _ :: _ => [.recv]

/-- The moves that pass on the frames the two loops hold. -/
def Direction.flush (d : Direction) : List PumpStep :=
  (match d.sendLoop with
    | .sending _ => [.send]
    | _ => []) ++
  (match d.recvLoop with
    | .offering _ => [.handOver, .send]
    | _ => [])

/-- A schedule for the two loops of a direction: pass on the frames they hold, then relay
what the source still has. -/
def Direction.finish (d : Direction) : List PumpStep :=
  d.flush ++
  (match d.recvLoop with
    | .ended => []
    | _ => relaySteps d.incoming)

/-- Moves a `recvLoop` can still make before it reads again. -/
def recvState.weight : recvState → Nat
  | .receiving => 1
  | .offering _ => 3
  | .ended => 0

/-- Moves a `sendLoop` can still make without a new frame. -/
def sendState.weight : sendState → Nat
  | .selecting => 1
  | .sending _ => 2
  | .ended => 0

/-- A bound on the moves a direction can still make. -/
def Direction.movesLeft (d : Direction) : Nat :=
  3 * d.incoming.length + d.recvLoop.weight + d.sendLoop.weight

/-- A bound on the moves a tunnel can still make, the end of the context apart. -/
def TunnelState.movesLeft (t : TunnelState) : Nat :=
  t.mgrToClient.movesLeft + t.clientToMgr.movesLeft + (if t.returned then 0 else 1)

/-! ## Concrete collaborators and states used to exercise the definitions -/

/-- A cluster configuration for context `ctx` on server `srv`. -/
def cfgA : k8sConfig := { Context := "ctx", Server := "srv", rest := [] }

/-- A second cluster configuration, for another context and server. -/
def cfgB : k8sConfig := { Context := "other", Server := "srv2", rest := [] }

/-- A tracker for `cfgA`. -/
def clusterA : k8sCluster := { addr := 1, k8sConfig := cfgA, mappedNamespaces := [] }

/-- A traffic manager whose client is connected. -/
def tmgrA : trafficManager := { addr := 2, managerClient := some 7, sshPort := 2222 }

/-- Collaborators that all succeed: flags with a `context` entry of `other` parse to `cfgB`,
any other flags to `cfgA`; configurations are compared structurally. -/
def goodCollab : Collab where
  newK8sConfig := fun flags => if flags = [("context", "other")] then .ok cfgB else .ok cfgA
  equals := fun a b => decide (a = b)
  trackKCluster := fun cfg mns => .ok { addr := 1, k8sConfig := cfg, mappedNamespaces := mns }
  findNumK8sObjects := fun _ => [("pods", 3)]
  getClusterId := fun _ => "id-1"
  detectIngressBehavior := fun _ => []
  newTrafficManager := fun _ => .ok tmgrA
  waitUntilStarted := fun _ => none
  start := fun _ => none
  check := fun _ => true
  checkNil := .panicked "nil bridge"
  setStatus := fun _ _ => { Agents := some [], Intercepts := some [] }
  setStatusNil := fun _ => .panicked "nil traffic manager"

/-- As `goodCollab`, but the cluster tracker cannot be created. -/
def failTrack : Collab := { goodCollab with trackKCluster := fun _ _ => .error "no cluster" }

/-- As `goodCollab`, but the traffic manager cannot be created. -/
def failTmgr : Collab := { goodCollab with newTrafficManager := fun _ => .error "no manager" }

/-- As `goodCollab`, but the traffic manager never becomes ready. -/
def failWait : Collab := { goodCollab with waitUntilStarted := fun _ => some "timeout" }

/-- As `goodCollab`, but the bridge does not start. -/
def failBridge : Collab := { goodCollab with start := fun _ => some "no bridge" }

/-- The state of a freshly started connector: nothing connected, nothing cancelled. -/
def disconnected : service :=
  { cluster := none, bridge := none, trafficMgr := none, managerProxy := none, trace := [] }

/-- A connected state: tracker, traffic manager and bridge all present. -/
def connectedA : service :=
  { cluster := some clusterA, bridge := some { sshPort := 2222 }, trafficMgr := some tmgrA,
    managerProxy := some 7, trace := [] }

/-- A request for the cluster of `cfgA` with namespace filters `b`, `a`. -/
def reqA : ConnectRequest := { KubeFlags := [], MappedNamespaces := ["b", "a"] }

/-- A request for the cluster of `cfgB`. -/
def reqB : ConnectRequest := { KubeFlags := [("context", "other")], MappedNamespaces := [] }

/-- A session left by a Connect whose traffic manager could not be created: only the tracker
is set. -/
def trackerOnly : service :=
  { cluster := some clusterA, bridge := none, trafficMgr := none, managerProxy := none,
    trace := [] }

/-- Conversion of a panic value to an error, as a text. -/
def panicText (r : Fault) : GoError := .other ("PANIC: " ++ r)

/-- Collaborators of the operations whose traffic-manager methods panic on a nil receiver. -/
def opsA : OpsCollab where
  APIVersion := 3
  Version := "v2"
  interceptStatus := fun s => if s.cluster.isNone then (1, "no connection") else (0, "")
  addIntercept := fun tm _ => match tm with
    | none => .panicked nilDereference
    | some _ => .returned (some {}, none)
  removeIntercept := fun tm _ => match tm with
    | none => .panicked nilDereference
    | some _ => .returned none
  deploymentInfoSnapshot := fun _ _ => ["deployment"]
  uninstall := fun tm _ => match tm with
    | none => .panicked nilDereference
    | some _ => .returned (some "done", none)

/-- A caller whose context has ended and to whom nothing can be sent any more. -/
def goneCaller : ServerStream String :=
  { Send := fun _ _ => some (.other "transport is closing")
    ctxErr := fun _ => some (.other "context canceled") }

/-- A caller that accepts every message and whose context is live. -/
def liveCaller : ServerStream String :=
  { Send := fun _ _ => none, ctxErr := fun _ => none }

/-- A proxy whose coordinator streams deliver the message `m1` and then block. -/
def proxyA : mgrProxy :=
  { client := some (ManagerClient.mk (fun _ => .ok [.ok "m1"]) (fun _ => .ok [.ok "m1"])
      (fun _ => .ok [.ok "m1"]) (fun _ => .ok [.ok "m1"])) }

/-- A proxy whose coordinator client is absent. -/
def proxyNil : mgrProxy := { client := none }

/-- A call whose service context ends at instant 20 and whose caller's context ends at 10. -/
def callerEarlier : callCtx :=
  { Context := { Deadline := (20, true) }, caller := { Deadline := (10, true) } }

/-- An interleaving in which the caller's three frames and the manager's frame all cross. -/
def crossing : List TunnelStep :=
  [.clientToMgr .recv, .mgrToClient .recv, .clientToMgr .handOver, .clientToMgr .recv,
   .mgrToClient .handOver, .clientToMgr .send, .clientToMgr .handOver, .mgrToClient .send,
   .clientToMgr .recv, .clientToMgr .send, .clientToMgr .handOver, .clientToMgr .send]

/-- The tunnel started on the caller's frames `f1`, `f2`, `f3` and the manager's frame `g1`,
with endpoints that accept every frame. -/
def framesStart : TunnelState :=
  { ctxDone := false
    mgrToClient := Direction.start [.ok "g1"] (fun _ => none) false
    clientToMgr := Direction.start [.ok "f1", .ok "f2", .ok "f3"] (fun _ => none) true
    returned := false }

/-- The state `framesStart` reaches by `crossing`: all frames read and passed on, the four
loops waiting. -/
def framesEnd : TunnelState :=
  { ctxDone := false
    mgrToClient :=
      { incoming := [], sendErr := fun _ => none, hasCloseSend := false,
        recvLoop := .receiving, sendLoop := .selecting, read := ["g1"], passed := ["g1"],
        closeSent := false }
    clientToMgr :=
      { incoming := [], sendErr := fun _ => none, hasCloseSend := true,
        recvLoop := .receiving, sendLoop := .selecting, read := ["f1", "f2", "f3"],
        passed := ["f1", "f2", "f3"], closeSent := false }
    returned := false }

/-! ## Theorems -/

/-- Updating the namespace filters keeps the tracker's identity. -/
theorem setMappedNamespaces_addr (kc : k8sCluster) (mns : List String) :
    (kc.setMappedNamespaces mns).addr = kc.addr := rfl

/-- Updating the namespace filters keeps the tracker's cluster configuration. -/
theorem setMappedNamespaces_k8sConfig (kc : k8sCluster) (mns : List String) :
    (kc.setMappedNamespaces mns).k8sConfig = kc.k8sConfig := rfl

/-- With a bridge and a traffic manager present, the status literal is always returned. -/
theorem statusInfo_present (K : Collab) (tag : ConnectInfo_ErrType) (cl : k8sCluster)
    (br : bridge) (tm : trafficManager) :
    ∃ info, statusInfo K tag cl (some br) (some tm) = .returned info ∧ info.Error = tag ∧
      info.ErrorText = "" ∧ info.ClusterOk = true ∧
      info.ClusterContext = cl.k8sConfig.Context ∧ info.ClusterServer = cl.k8sConfig.Server ∧
      info.ClusterId = K.getClusterId cl ∧ info.BridgeOk = K.check br := by
  simp [statusInfo, bridgeCheck, trafficMgrSetStatus, Completion.bind]

/-- C1: in a state with a session (tracker `cl`, bridge and traffic manager present), a connect
request whose flags parse to a config equal to the session's config returns an outcome tagged
ALREADY_CONNECTED (carrying the session's context and server); afterwards the tracker is the same
object with the same config, the bridge, the traffic manager and the published client are
unchanged, no tracker was created and cancel was not invoked. -/
theorem connect_same_config_already_connected (K : Collab) (s : service) (cr : ConnectRequest)
    (cl : k8sCluster) (br : bridge) (tm : trafficManager) (cfg : k8sConfig)
    (hc : s.cluster = some cl) (hb : s.bridge = some br) (ht : s.trafficMgr = some tm)
    (hp : K.newK8sConfig cr.KubeFlags = .ok cfg) (he : K.equals cl.k8sConfig cfg = true) :
    ∃ info cl2, (connect K s cr).2 = .returned info ∧
      info.Error = .ALREADY_CONNECTED ∧
      info.ClusterContext = cl.k8sConfig.Context ∧ info.ClusterServer = cl.k8sConfig.Server ∧
      (connect K s cr).1.cluster = some cl2 ∧
      cl2.addr = cl.addr ∧ cl2.k8sConfig = cl.k8sConfig ∧
      (connect K s cr).1.bridge = s.bridge ∧
      (connect K s cr).1.trafficMgr = s.trafficMgr ∧
      (connect K s cr).1.managerProxy = s.managerProxy ∧
      (connect K s cr).1.trace.count .trackKCluster = s.trace.count .trackKCluster ∧
      cancelCalls (connect K s cr).1.trace = cancelCalls s.trace := by
  by_cases hm : cr.MappedNamespaces.length > 0
  · obtain ⟨info, h1, h2, -, -, h3, h4, -⟩ := statusInfo_present K .ALREADY_CONNECTED
      (cl.setMappedNamespaces (normalizeMappedNamespaces cr.MappedNamespaces)) br tm
    refine ⟨info, cl.setMappedNamespaces (normalizeMappedNamespaces cr.MappedNamespaces), ?_⟩
    simp [connect, hp, hc, he, hm, hb, ht, service.emit, h1, h2, h3, h4, cancelCalls,
      setMappedNamespaces_addr, setMappedNamespaces_k8sConfig]
  · obtain ⟨info, h1, h2, -, -, h3, h4, -⟩ := statusInfo_present K .ALREADY_CONNECTED cl br tm
    refine ⟨info, cl, ?_⟩
    simp [connect, hp, hc, he, hm, hb, ht, h1, h2, h3, h4]

/-- Witness of C1 on `connectedA` and `reqA`. -/
theorem connect_same_config_already_connected_witness :
    ∃ info cl2, (connect goodCollab connectedA reqA).2 = .returned info ∧
      info.Error = .ALREADY_CONNECTED ∧
      info.ClusterContext = clusterA.k8sConfig.Context ∧
      info.ClusterServer = clusterA.k8sConfig.Server ∧
      (connect goodCollab connectedA reqA).1.cluster = some cl2 ∧
      cl2.addr = clusterA.addr ∧ cl2.k8sConfig = clusterA.k8sConfig ∧
      (connect goodCollab connectedA reqA).1.bridge = connectedA.bridge ∧
      (connect goodCollab connectedA reqA).1.trafficMgr = connectedA.trafficMgr ∧
      (connect goodCollab connectedA reqA).1.managerProxy = connectedA.managerProxy ∧
      (connect goodCollab connectedA reqA).1.trace.count .trackKCluster
        = connectedA.trace.count .trackKCluster ∧
      cancelCalls (connect goodCollab connectedA reqA).1.trace = cancelCalls connectedA.trace :=
  connect_same_config_already_connected goodCollab connectedA reqA clusterA
    { sshPort := 2222 } tmgrA cfgA rfl rfl rfl rfl (by decide)

/-- C2: in a state with a session, a connect request whose flags parse to a config that differs
from the session's config returns an outcome tagged MUST_RESTART whose ClusterContext and
ClusterServer are those of the existing session, and the state (tracker with its namespace
filters, bridge, traffic manager, published client, trace of effects and hence cancel) is exactly
the state before the call. -/
theorem connect_other_config_must_restart (K : Collab) (s : service) (cr : ConnectRequest)
    (cl : k8sCluster) (br : bridge) (tm : trafficManager) (cfg : k8sConfig)
    (hc : s.cluster = some cl) (hb : s.bridge = some br) (ht : s.trafficMgr = some tm)
    (hp : K.newK8sConfig cr.KubeFlags = .ok cfg) (he : K.equals cl.k8sConfig cfg = false) :
    ∃ info, (connect K s cr).2 = .returned info ∧
      info.Error = .MUST_RESTART ∧
      info.ClusterContext = cl.k8sConfig.Context ∧ info.ClusterServer = cl.k8sConfig.Server ∧
      (connect K s cr).1 = s := by
  obtain ⟨info, h1, h2, -, -, h3, h4, -⟩ := statusInfo_present K .MUST_RESTART cl br tm
  refine ⟨info, ?_⟩
  simp [connect, hp, hc, he, hb, ht, h1, h2, h3, h4]

/-- Witness of C2 on `connectedA` and `reqB`. -/
theorem connect_other_config_must_restart_witness :
    ∃ info, (connect goodCollab connectedA reqB).2 = .returned info ∧
      info.Error = .MUST_RESTART ∧
      info.ClusterContext = clusterA.k8sConfig.Context ∧
      info.ClusterServer = clusterA.k8sConfig.Server ∧
      (connect goodCollab connectedA reqB).1 = connectedA :=
  connect_other_config_must_restart goodCollab connectedA reqB clusterA
    { sshPort := 2222 } tmgrA cfgB rfl rfl rfl rfl (by decide)

/-- A first Connect (no tracker, no bridge, flags that parse) runs `establish`. -/
theorem connect_first (K : Collab) (s : service) (cr : ConnectRequest) (cfg : k8sConfig)
    (hc : s.cluster = none) (hb : s.bridge = none)
    (hp : K.newK8sConfig cr.KubeFlags = .ok cfg) :
    connect K s cr = establish K s cr cfg := by
  simp [connect, hp, hc, hb]

/-- C3: during a first Connect (no tracker, no bridge, flags parse), whichever of tracker
creation, traffic-manager creation, readiness wait and bridge start fails first, cancel is invoked
exactly once, no later establishment step is performed, and the outcome is CLUSTER_FAILED,
TRAFFIC_MANAGER_FAILED, TRAFFIC_MANAGER_FAILED or BRIDGE_FAILED with the failing step's error
text; when no step fails cancel is not invoked and every step is performed once. -/
theorem connect_first_failure_cancels_once (K : Collab) (s : service) (cr : ConnectRequest)
    (cfg : k8sConfig) (hc : s.cluster = none) (hb : s.bridge = none)
    (hp : K.newK8sConfig cr.KubeFlags = .ok cfg) :
    (∀ e, K.trackKCluster cfg (normalizeMappedNamespaces cr.MappedNamespaces) = .error e →
      (∃ info, (connect K s cr).2 = .returned info ∧ info.Error = .CLUSTER_FAILED ∧
        info.ErrorText = e) ∧
      cancelCalls (connect K s cr).1.trace = cancelCalls s.trace + 1 ∧
      (connect K s cr).1.trace.count .newTrafficManager = s.trace.count .newTrafficManager ∧
      (connect K s cr).1.trace.count .waitUntilStarted = s.trace.count .waitUntilStarted ∧
      (connect K s cr).1.trace.count .bridgeStart = s.trace.count .bridgeStart) ∧
    (∀ cl e, K.trackKCluster cfg (normalizeMappedNamespaces cr.MappedNamespaces) = .ok cl →
      K.newTrafficManager cl = .error e →
      (∃ info, (connect K s cr).2 = .returned info ∧ info.Error = .TRAFFIC_MANAGER_FAILED ∧
        info.ErrorText = e) ∧
      cancelCalls (connect K s cr).1.trace = cancelCalls s.trace + 1 ∧
      (connect K s cr).1.trace.count .waitUntilStarted = s.trace.count .waitUntilStarted ∧
      (connect K s cr).1.trace.count .bridgeStart = s.trace.count .bridgeStart) ∧
    (∀ cl tm e, K.trackKCluster cfg (normalizeMappedNamespaces cr.MappedNamespaces) = .ok cl →
      K.newTrafficManager cl = .ok tm → K.waitUntilStarted tm = some e →
      (∃ info, (connect K s cr).2 = .returned info ∧ info.Error = .TRAFFIC_MANAGER_FAILED ∧
        info.ErrorText = e) ∧
      cancelCalls (connect K s cr).1.trace = cancelCalls s.trace + 1 ∧
      (connect K s cr).1.trace.count .bridgeStart = s.trace.count .bridgeStart) ∧
    (∀ cl tm e, K.trackKCluster cfg (normalizeMappedNamespaces cr.MappedNamespaces) = .ok cl →
      K.newTrafficManager cl = .ok tm → K.waitUntilStarted tm = none →
      K.start { sshPort := tm.sshPort } = some e →
      (∃ info, (connect K s cr).2 = .returned info ∧ info.Error = .BRIDGE_FAILED ∧
        info.ErrorText = e) ∧
      cancelCalls (connect K s cr).1.trace = cancelCalls s.trace + 1) ∧
    (∀ cl tm, K.trackKCluster cfg (normalizeMappedNamespaces cr.MappedNamespaces) = .ok cl →
      K.newTrafficManager cl = .ok tm → K.waitUntilStarted tm = none →
      K.start { sshPort := tm.sshPort } = none →
      (∃ info, (connect K s cr).2 = .returned info ∧ info.Error = .UNSPECIFIED) ∧
      cancelCalls (connect K s cr).1.trace = cancelCalls s.trace ∧
      (connect K s cr).1.trace.count .trackKCluster = s.trace.count .trackKCluster + 1 ∧
      (connect K s cr).1.trace.count .newTrafficManager
        = s.trace.count .newTrafficManager + 1 ∧
      (connect K s cr).1.trace.count .waitUntilStarted = s.trace.count .waitUntilStarted + 1 ∧
      (connect K s cr).1.trace.count .bridgeStart = s.trace.count .bridgeStart + 1) := by
  rw [connect_first K s cr cfg hc hb hp]
  refine ⟨?_, ?_, ?_, ?_, ?_⟩
  · intro e h1
    simp [establish, h1, service.emit, cancelCalls, List.count_append, List.count_cons]
  · intro cl e h1 h2
    simp [establish, h1, h2, service.emit, cancelCalls, List.count_append, List.count_cons,
      List.count_eq_zero]
  · intro cl tm e h1 h2 h3
    simp [establish, h1, h2, h3, service.emit, cancelCalls, List.count_append, List.count_cons,
      List.count_eq_zero]
  · intro cl tm e h1 h2 h3 h4
    simp [establish, h1, h2, h3, h4, service.emit, cancelCalls, List.count_append,
      List.count_cons, List.count_eq_zero]
  · intro cl tm h1 h2 h3 h4
    obtain ⟨info, h5, h6, -⟩ := statusInfo_present K .UNSPECIFIED cl { sshPort := tm.sshPort } tm
    simp [establish, h1, h2, h3, h4, service.emit, cancelCalls, List.count_append,
      List.count_cons, List.count_eq_zero, h5, h6]

/-- Witness of C3: one concrete run for each of the five cases. -/
theorem connect_first_failure_cancels_once_witness :
    ((∃ info, (connect failTrack disconnected reqA).2 = .returned info ∧
        info.Error = .CLUSTER_FAILED ∧ info.ErrorText = "no cluster") ∧
      cancelCalls (connect failTrack disconnected reqA).1.trace = cancelCalls disconnected.trace + 1)
    ∧ ((∃ info, (connect failTmgr disconnected reqA).2 = .returned info ∧
        info.Error = .TRAFFIC_MANAGER_FAILED ∧ info.ErrorText = "no manager") ∧
      cancelCalls (connect failTmgr disconnected reqA).1.trace = cancelCalls disconnected.trace + 1)
    ∧ ((∃ info, (connect failWait disconnected reqA).2 = .returned info ∧
        info.Error = .TRAFFIC_MANAGER_FAILED ∧ info.ErrorText = "timeout") ∧
      cancelCalls (connect failWait disconnected reqA).1.trace = cancelCalls disconnected.trace + 1)
    ∧ ((∃ info, (connect failBridge disconnected reqA).2 = .returned info ∧
        info.Error = .BRIDGE_FAILED ∧ info.ErrorText = "no bridge") ∧
      cancelCalls (connect failBridge disconnected reqA).1.trace
        = cancelCalls disconnected.trace + 1)
    ∧ ((∃ info, (connect goodCollab disconnected reqA).2 = .returned info ∧
        info.Error = .UNSPECIFIED) ∧
      cancelCalls (connect goodCollab disconnected reqA).1.trace
        = cancelCalls disconnected.trace) := by
  refine ⟨?_, ?_, ?_, ?_, ?_⟩
  · have h := (connect_first_failure_cancels_once failTrack disconnected reqA cfgA rfl rfl
      rfl).1 "no cluster" rfl
    exact ⟨h.1, h.2.1⟩
  · have h := (connect_first_failure_cancels_once failTmgr disconnected reqA cfgA rfl rfl
      rfl).2.1 _ "no manager" rfl rfl
    exact ⟨h.1, h.2.1⟩
  · have h := (connect_first_failure_cancels_once failWait disconnected reqA cfgA rfl rfl
      rfl).2.2.1 _ tmgrA "timeout" rfl rfl rfl
    exact ⟨h.1, h.2.1⟩
  · exact (connect_first_failure_cancels_once failBridge disconnected reqA cfgA rfl rfl
      rfl).2.2.2.1 _ tmgrA "no bridge" rfl rfl rfl rfl
  · have h := (connect_first_failure_cancels_once goodCollab disconnected reqA cfgA rfl rfl
      rfl).2.2.2.2 _ tmgrA rfl rfl rfl rfl
    exact ⟨h.1, h.2.1⟩

/-- The establishment steps never remove a cancel invocation from the trace. -/
theorem establish_cancelCalls_mono (K : Collab) (s : service) (cr : ConnectRequest)
    (cfg : k8sConfig) : cancelCalls s.trace ≤ cancelCalls (establish K s cr cfg).1.trace := by
  cases h1 : K.trackKCluster cfg (normalizeMappedNamespaces cr.MappedNamespaces) with
  | error e => simp [establish, h1, service.emit, cancelCalls, List.count_append]
  | ok cl =>
    cases h2 : K.newTrafficManager cl with
    | error e => simp [establish, h1, h2, service.emit, cancelCalls, List.count_append]
    | ok tm =>
      cases h3 : K.waitUntilStarted tm with
      | some e => simp [establish, h1, h2, h3, service.emit, cancelCalls, List.count_append]
      | none =>
        cases h4 : K.start { sshPort := tm.sshPort } with
        | some e =>
          simp [establish, h1, h2, h3, h4, service.emit, cancelCalls, List.count_append]
        | none =>
          simp [establish, h1, h2, h3, h4, service.emit, cancelCalls, List.count_append]

/-- From a state with no session component, the establishment steps end with all three
components absent, or all three set, or else with the tracker set, the bridge absent and one
more cancel invocation. -/
theorem establish_allOrNone_or_cancel (K : Collab) (s : service) (cr : ConnectRequest)
    (cfg : k8sConfig) (hc : s.cluster = none) (hb : s.bridge = none)
    (ht : s.trafficMgr = none) :
    sessionAllOrNone (establish K s cr cfg).1 = true ∨
      ((establish K s cr cfg).1.cluster.isSome = true ∧ (establish K s cr cfg).1.bridge = none ∧
        cancelCalls (establish K s cr cfg).1.trace = cancelCalls s.trace + 1) := by
  cases h1 : K.trackKCluster cfg (normalizeMappedNamespaces cr.MappedNamespaces) with
  | error e =>
    left
    simp [establish, h1, service.emit, sessionAllOrNone, hc, hb, ht]
  | ok cl =>
    cases h2 : K.newTrafficManager cl with
    | error e =>
      right
      simp [establish, h1, h2, service.emit, cancelCalls, List.count_append, List.count_cons,
        List.count_eq_zero, hb]
    | ok tm =>
      cases h3 : K.waitUntilStarted tm with
      | some e =>
        right
        simp [establish, h1, h2, h3, service.emit, cancelCalls, List.count_append,
          List.count_cons, List.count_eq_zero, hb]
      | none =>
        cases h4 : K.start { sshPort := tm.sshPort } with
        | some e =>
          right
          simp [establish, h1, h2, h3, h4, service.emit, cancelCalls, List.count_append,
            List.count_cons, List.count_eq_zero, hb]
        | none =>
          left
          simp [establish, h1, h2, h3, h4, service.emit, sessionAllOrNone]

/-- The session fields and the trace after a call of `connect` that does not reach the
establishment steps: only the tracker's namespace filters may have been updated. -/
theorem connect_cases (K : Collab) (s : service) (cr : ConnectRequest) :
    (connect K s cr).1 = s ∨
    (∃ cl mns, s.cluster = some cl ∧
      (connect K s cr).1 = ({ s with cluster := some (cl.setMappedNamespaces mns) } : service).emit
        [.setMappedNamespaces mns]) ∨
    (∃ cfg, s.cluster = none ∧ s.bridge = none ∧ connect K s cr = establish K s cr cfg) := by
  cases hp : K.newK8sConfig cr.KubeFlags with
  | error e => simp [connect, hp]
  | ok cfg =>
    cases hc : s.cluster with
    | some cl =>
      by_cases he : K.equals cl.k8sConfig cfg = true
      · by_cases hm : cr.MappedNamespaces.length > 0
        · right; left
          exact ⟨cl, normalizeMappedNamespaces cr.MappedNamespaces, rfl,
            by simp [connect, hp, hc, he, hm]⟩
        · left; simp [connect, hp, hc, he, hm]
      · left; simp [connect, hp, hc, he]
    | none =>
      cases hb : s.bridge with
      | some b => left; simp [connect, hp, hc, hb]
      | none => right; right; exact ⟨cfg, rfl, rfl, by simp [connect, hp, hc, hb]⟩

/-- A call of `connect` never removes a cancel invocation from the trace. -/
theorem connect_cancelCalls_mono (K : Collab) (s : service) (cr : ConnectRequest) :
    cancelCalls s.trace ≤ cancelCalls (connect K s cr).1.trace := by
  rcases connect_cases K s cr with h | ⟨cl, mns, -, h⟩ | ⟨cfg, -, -, h⟩
  · rw [h]
  · rw [h]; simp [service.emit, cancelCalls, List.count_append]
  · rw [h]; exact establish_cancelCalls_mono K s cr cfg

/-- From a state satisfying the invariant, a call of `connect` either re-establishes the
invariant or leaves the tracker set and the bridge absent after one more cancel invocation. -/
theorem connect_allOrNone_or_cancel (K : Collab) (s : service) (cr : ConnectRequest)
    (h : sessionAllOrNone s = true) :
    sessionAllOrNone (connect K s cr).1 = true ∨
      ((connect K s cr).1.cluster.isSome = true ∧ (connect K s cr).1.bridge = none ∧
        cancelCalls (connect K s cr).1.trace = cancelCalls s.trace + 1) := by
  rcases connect_cases K s cr with h1 | ⟨cl, mns, hc, h1⟩ | ⟨cfg, hc, hb, h1⟩
  · rw [h1]; exact Or.inl h
  · rw [h1]; left
    simp_all [sessionAllOrNone, service.emit]
  · rw [h1]
    have ht : s.trafficMgr = none := by
      simp [sessionAllOrNone, hc, hb] at h
      exact h
    exact establish_allOrNone_or_cancel K s cr cfg hc hb ht

/-- A state with the tracker set and the bridge absent stays so under `connect`, which then
takes one of the two branches for an existing tracker. -/
theorem connect_keeps_tracker_only (K : Collab) (s : service) (cr : ConnectRequest)
    (hc : s.cluster.isSome = true) (hb : s.bridge = none) :
    (connect K s cr).1.cluster.isSome = true ∧ (connect K s cr).1.bridge = none := by
  rcases connect_cases K s cr with h1 | ⟨cl, mns, -, h1⟩ | ⟨cfg, hn, -, -⟩
  · rw [h1]; exact ⟨hc, hb⟩
  · rw [h1]; simp [service.emit, hb]
  · rw [hn] at hc; simp at hc

/-- The session invariant up to cancellation. -/
theorem connect_keeps_allOrNone_or_cancelled (K : Collab) (s : service) (cr : ConnectRequest)
    (h : sessionAllOrNone s = true ∨
      (s.cluster.isSome = true ∧ s.bridge = none ∧ 0 < cancelCalls s.trace)) :
    sessionAllOrNone (connect K s cr).1 = true ∨
      ((connect K s cr).1.cluster.isSome = true ∧ (connect K s cr).1.bridge = none ∧
        0 < cancelCalls (connect K s cr).1.trace) := by
  rcases h with h | ⟨hc, hb, hn⟩
  · rcases connect_allOrNone_or_cancel K s cr h with h2 | ⟨h2, h3, h4⟩
    · exact Or.inl h2
    · exact Or.inr ⟨h2, h3, by omega⟩
  · obtain ⟨h2, h3⟩ := connect_keeps_tracker_only K s cr hc hb
    exact Or.inr ⟨h2, h3, lt_of_lt_of_le hn (connect_cancelCalls_mono K s cr)⟩

/-- The invariant up to cancellation is kept by every sequence of calls. -/
theorem connectAll_keeps_allOrNone_or_cancelled (calls : List (Collab × ConnectRequest)) :
    ∀ s : service,
      (sessionAllOrNone s = true ∨
        (s.cluster.isSome = true ∧ s.bridge = none ∧ 0 < cancelCalls s.trace)) →
      (sessionAllOrNone (connectAll s calls) = true ∨
        ((connectAll s calls).cluster.isSome = true ∧ (connectAll s calls).bridge = none ∧
          0 < cancelCalls (connectAll s calls).trace)) := by
  induction calls with
  | nil => intro s h; exact h
  | cons c rest ih =>
    intro s h
    obtain ⟨K, cr⟩ := c
    exact ih _ (connect_keeps_allOrNone_or_cancelled K s cr h)

/-- C4, as stated, fails: from the disconnected state, one Connect in which the tracker is
created and the traffic manager cannot be created returns with the tracker set while bridge and
traffic manager are absent. -/
theorem session_allOrNone_counterexample :
    (connect failTmgr disconnected reqA).2
        = .returned { Error := .TRAFFIC_MANAGER_FAILED, ErrorText := "no manager" } ∧
    (connectAll disconnected [(failTmgr, reqA)]).cluster.isSome = true ∧
    (connectAll disconnected [(failTmgr, reqA)]).bridge = none ∧
    (connectAll disconnected [(failTmgr, reqA)]).trafficMgr = none ∧
    sessionAllOrNone (connectAll disconnected [(failTmgr, reqA)]) = false := by
  refine ⟨?_, ?_, ?_, ?_, ?_⟩ <;> rfl

/-- C4, amended: starting from the disconnected state, after any sequence of calls of
`service.connect`, with any behaviour of the collaborators, the three session components are all
absent or all present, or else the tracker is set, the bridge is absent and the
process-lifetime cancel has been invoked; and a further call made in a state where the three
are all absent or all present leaves them so, unless it ends with the tracker set and the
bridge absent after invoking cancel exactly once. -/
theorem session_allOrNone_unless_cancelled (calls : List (Collab × ConnectRequest))
    (K : Collab) (cr : ConnectRequest) :
    (sessionAllOrNone (connectAll disconnected calls) = true ∨
      ((connectAll disconnected calls).cluster.isSome = true ∧
        (connectAll disconnected calls).bridge = none ∧
        0 < cancelCalls (connectAll disconnected calls).trace)) ∧
    (sessionAllOrNone (connectAll disconnected calls) = true →
      sessionAllOrNone (connect K (connectAll disconnected calls) cr).1 = true ∨
      ((connect K (connectAll disconnected calls) cr).1.cluster.isSome = true ∧
        (connect K (connectAll disconnected calls) cr).1.bridge = none ∧
        cancelCalls (connect K (connectAll disconnected calls) cr).1.trace
          = cancelCalls (connectAll disconnected calls).trace + 1)) :=
  ⟨connectAll_keeps_allOrNone_or_cancelled calls disconnected (Or.inl rfl),
   connect_allOrNone_or_cancel K _ cr⟩

/-- Witness of C4 amended: after a Connect that succeeds, a Connect for the same cluster keeps
all three components; from the disconnected state a Connect whose traffic manager cannot be
created ends with the tracker set, the bridge absent and one cancel. -/
theorem session_allOrNone_unless_cancelled_witness :
    sessionAllOrNone (connectAll disconnected [(goodCollab, reqA)]) = true ∧
    sessionAllOrNone (connect goodCollab (connectAll disconnected [(goodCollab, reqA)]) reqA).1
      = true ∧
    sessionAllOrNone (connectAll disconnected []) = true ∧
    (connect failTmgr (connectAll disconnected []) reqA).1.cluster.isSome = true ∧
    (connect failTmgr (connectAll disconnected []) reqA).1.bridge = none ∧
    cancelCalls (connect failTmgr (connectAll disconnected []) reqA).1.trace
      = cancelCalls (connectAll disconnected []).trace + 1 := by
  have h2 := (session_allOrNone_unless_cancelled [] failTmgr reqA).2 rfl
  refine ⟨rfl, rfl, rfl, rfl, rfl, ?_⟩
  rcases h2 with h2 | h2
  · exact absurd h2 (by decide)
  · exact h2.2.2

/-- An outcome built by `statusInfo` carries the tag it was given. -/
theorem statusInfo_tag (K : Collab) (tag : ConnectInfo_ErrType) (cl : k8sCluster)
    (br : Option bridge) (tm : Option trafficManager) (info : ConnectInfo)
    (h : statusInfo K tag cl br tm = .returned info) : info.Error = tag := by
  unfold statusInfo trafficMgrSetStatus at h
  cases hb : bridgeCheck K br with
  | panicked r => simp [hb, Completion.bind] at h
  | returned ok =>
    cases tm with
    | some t =>
      simp [hb, Completion.bind] at h
      rw [← h]
    | none =>
      simp only [hb, Completion.bind] at h
      split at h
      · simp at h; rw [← h]
      · simp at h

/-- A failure outcome of the establishment steps is the bare literal with tag and error text. -/
theorem establish_failure_bare (K : Collab) (s : service) (cr : ConnectRequest)
    (cfg : k8sConfig) (info : ConnectInfo)
    (h : (establish K s cr cfg).2 = .returned info) (hf : info.Error.isFailure = true) :
    info = { Error := info.Error, ErrorText := info.ErrorText } := by
  cases h1 : K.trackKCluster cfg (normalizeMappedNamespaces cr.MappedNamespaces) with
  | error e => simp [establish, h1] at h; rw [← h]
  | ok cl =>
    cases h2 : K.newTrafficManager cl with
    | error e => simp [establish, h1, h2] at h; rw [← h]
    | ok tm =>
      cases h3 : K.waitUntilStarted tm with
      | some e => simp [establish, h1, h2, h3] at h; rw [← h]
      | none =>
        cases h4 : K.start { sshPort := tm.sshPort } with
        | some e => simp [establish, h1, h2, h3, h4] at h; rw [← h]
        | none =>
          simp only [establish, h1, h2, h3, h4] at h
          have := statusInfo_tag _ _ _ _ _ _ h
          rw [this] at hf
          exact absurd hf (by decide)

/-- C5, as stated, fails: when tracker and traffic manager are created and the bridge does not
start, the BRIDGE_FAILED outcome has ClusterOk false and empty ClusterContext, ClusterServer and
ClusterId, although the tracker that was created (and stored) has context `ctx`, server `srv`
and cluster id `id-1`. -/
theorem failure_outcome_status_counterexample :
    ∃ info cl, (connect failBridge disconnected reqA).2 = .returned info ∧
      (connect failBridge disconnected reqA).1.cluster = some cl ∧
      info.Error = .BRIDGE_FAILED ∧
      cl.k8sConfig.Context = "ctx" ∧ cl.k8sConfig.Server = "srv" ∧
      failBridge.getClusterId cl = "id-1" ∧
      info.ClusterOk = false ∧ info.ClusterContext = "" ∧ info.ClusterServer = "" ∧
      info.ClusterId = "" :=
  ⟨{ Error := .BRIDGE_FAILED, ErrorText := "no bridge" },
   { addr := 1, k8sConfig := cfgA, mappedNamespaces := normalizeMappedNamespaces ["b", "a"] },
   rfl, rfl, rfl, rfl, rfl, rfl, rfl, rfl, rfl, rfl⟩

/-- C5, amended: every outcome of `service.connect` tagged CLUSTER_FAILED,
TRAFFIC_MANAGER_FAILED or BRIDGE_FAILED carries the tag and the error text only; its cluster and
bridge status fields (ClusterOk, ClusterContext, ClusterServer, ClusterId, BridgeOk,
IngressInfos) and the coordinator's fields are at their zero values, whichever steps succeeded
before the failure. -/
theorem failure_outcome_is_bare (K : Collab) (s : service) (cr : ConnectRequest)
    (info : ConnectInfo) (h : (connect K s cr).2 = .returned info)
    (hf : info.Error.isFailure = true) :
    info = { Error := info.Error, ErrorText := info.ErrorText } ∧
      info.ClusterOk = false ∧ info.ClusterContext = "" ∧ info.ClusterServer = "" ∧
      info.ClusterId = "" ∧ info.BridgeOk = false ∧ info.IngressInfos = [] := by
  have key : info = { Error := info.Error, ErrorText := info.ErrorText } := by
    cases hp : K.newK8sConfig cr.KubeFlags with
    | error e => simp [connect, hp] at h; rw [← h]
    | ok cfg =>
      cases hc : s.cluster with
      | some cl =>
        by_cases he : K.equals cl.k8sConfig cfg = true
        · by_cases hm : cr.MappedNamespaces.length > 0
          · simp only [connect, hp, hc, he, hm, if_true, service.emit] at h
            have := statusInfo_tag _ _ _ _ _ _ h
            rw [this] at hf
            exact absurd hf (by decide)
          · simp only [connect, hp, hc, he, hm, if_true, if_false] at h
            have := statusInfo_tag _ _ _ _ _ _ h
            rw [this] at hf
            exact absurd hf (by decide)
        · simp only [connect, hp, hc, he, if_false] at h
          have := statusInfo_tag _ _ _ _ _ _ h
          rw [this] at hf
          exact absurd hf (by decide)
      | none =>
        cases hb : s.bridge with
        | some b =>
          simp [connect, hp, hc, hb] at h
          rw [← h] at hf
          exact absurd hf (by decide)
        | none =>
          have h2 : connect K s cr = establish K s cr cfg := connect_first K s cr cfg hc hb hp
          rw [h2] at h
          exact establish_failure_bare K s cr cfg info h hf
  refine ⟨key, ?_, ?_, ?_, ?_, ?_, ?_⟩ <;> rw [key]

/-- Witness of C5 amended: the BRIDGE_FAILED outcome of `failBridge`. -/
theorem failure_outcome_is_bare_witness :
    (connect failBridge disconnected reqA).2
        = .returned { Error := .BRIDGE_FAILED, ErrorText := "no bridge" } ∧
      ({ Error := .BRIDGE_FAILED, ErrorText := "no bridge" } : ConnectInfo).Error.isFailure
        = true ∧
      (({ Error := .BRIDGE_FAILED, ErrorText := "no bridge" } : ConnectInfo)
        = { Error := ConnectInfo_ErrType.BRIDGE_FAILED, ErrorText := "no bridge" } ∧
      ({ Error := .BRIDGE_FAILED, ErrorText := "no bridge" } : ConnectInfo).ClusterOk = false ∧
      ({ Error := .BRIDGE_FAILED, ErrorText := "no bridge" } : ConnectInfo).ClusterContext = "" ∧
      ({ Error := .BRIDGE_FAILED, ErrorText := "no bridge" } : ConnectInfo).ClusterServer = "" ∧
      ({ Error := .BRIDGE_FAILED, ErrorText := "no bridge" } : ConnectInfo).ClusterId = "" ∧
      ({ Error := .BRIDGE_FAILED, ErrorText := "no bridge" } : ConnectInfo).BridgeOk = false ∧
      ({ Error := .BRIDGE_FAILED, ErrorText := "no bridge" } : ConnectInfo).IngressInfos = []) :=
  ⟨rfl, rfl, failure_outcome_is_bare failBridge disconnected reqA
    { Error := .BRIDGE_FAILED, ErrorText := "no bridge" } rfl rfl⟩

/-- A list that is not the one-element list `all` does not sort to it. -/
theorem sorted_ne_all_singleton (l : List String)
    (h : ¬ (l.length == 1 && l.head? == some "all") = true) :
    ¬ ((l.insertionSort (· ≤ ·)).length == 1 &&
        (l.insertionSort (· ≤ ·)).head? == some "all") = true := by
  intro hs
  apply h
  simp only [Bool.and_eq_true, beq_iff_eq, List.length_insertionSort] at hs ⊢
  refine ⟨hs.1, ?_⟩
  match l, hs with
  | [a], hs => simpa using hs.2

/-- Permutations of one list normalise to the same list. -/
theorem normalize_perm (l l' : List String) (h : l.Perm l') :
    normalizeMappedNamespaces l = normalizeMappedNamespaces l' := by
  unfold normalizeMappedNamespaces
  by_cases h1 : (l.length == 1 && l.head? == some "all") = true
  · have : l = ["all"] := by
      match l, h1 with
      | [a], h1 => simpa using h1
    subst this
    have : l' = ["all"] := by simpa using h.symm
    subst this
    rfl
  · have h2 : ¬ (l'.length == 1 && l'.head? == some "all") = true := by
      intro h2
      apply h1
      have : l' = ["all"] := by
        match l', h2 with
        | [a], h2 => simpa using h2
      subst this
      have : l = ["all"] := by simpa using h
      subst this
      rfl
    simp only [h1, h2, if_false, Bool.false_eq_true]
    apply List.eq_of_perm_of_sorted (r := (· ≤ ·))
    · exact (List.perm_insertionSort _ l).trans (h.trans (List.perm_insertionSort _ l').symm)
    · exact List.sorted_insertionSort _ l
    · exact List.sorted_insertionSort _ l'

/-- Normalising twice is normalising once. -/
theorem normalize_idem (l : List String) :
    normalizeMappedNamespaces (normalizeMappedNamespaces l) = normalizeMappedNamespaces l := by
  by_cases h1 : (l.length == 1 && l.head? == some "all") = true
  · have : l = ["all"] := by
      match l, h1 with
      | [a], h1 => simpa using h1
    subst this
    decide
  · have h2 := sorted_ne_all_singleton l h1
    have h3 : normalizeMappedNamespaces l = l.insertionSort (· ≤ ·) := by
      simp only [normalizeMappedNamespaces, h1, if_false, Bool.false_eq_true]
    rw [h3]
    simp only [normalizeMappedNamespaces, h2, if_false, Bool.false_eq_true]
    exact List.Sorted.insertionSort_eq (List.sorted_insertionSort _ l)

/-- The order of strings, decided on their characters. -/
theorem str_le_iff (a b : String) : a ≤ b ↔ a.toList ≤ b.toList := String.le_iff_toList_le

/-- A list other than the one-element list `all` is only rearranged by the normalisation. -/
theorem normalize_perm_self (l : List String) (h : l ≠ ["all"]) :
    (normalizeMappedNamespaces l).Perm l := by
  have h1 : ¬ (l.length == 1 && l.head? == some "all") = true := by
    intro h1
    apply h
    match l, h1 with
    | [a], h1 => simpa using h1
  simp only [normalizeMappedNamespaces, h1, if_false, Bool.false_eq_true]
  exact List.perm_insertionSort _ l

/-- C6: the namespace-filter normalisation of `service.connect` is a canonical form: the
one-element list `all` normalises to what the empty list normalises to (the empty list); any
other list normalises to a list with the same elements, each as often as in the input, in
sorted order; hence a list and any permutation of it normalise to the same list; and
normalising a normalised list returns it unchanged. -/
theorem normalizeMappedNamespaces_canonical (l l' : List String) (h : l.Perm l') :
    normalizeMappedNamespaces ["all"] = normalizeMappedNamespaces [] ∧
      normalizeMappedNamespaces ["all"] = [] ∧
      (l ≠ ["all"] → (normalizeMappedNamespaces l).Perm l) ∧
      (normalizeMappedNamespaces l).Sorted (· ≤ ·) ∧
      normalizeMappedNamespaces l = normalizeMappedNamespaces l' ∧
      normalizeMappedNamespaces (normalizeMappedNamespaces l) = normalizeMappedNamespaces l := by
  refine ⟨by decide, by decide, normalize_perm_self l, ?_, normalize_perm l l' h,
    normalize_idem l⟩
  unfold normalizeMappedNamespaces
  exact List.sorted_insertionSort _ _

/-- Witness of C6 on the lists `b, a` and `a, b`, which both normalise to `a, b`. -/
theorem normalizeMappedNamespaces_canonical_witness :
    (["b", "a"] : List String).Perm ["a", "b"] ∧
      (["b", "a"] : List String) ≠ ["all"] ∧
      normalizeMappedNamespaces ["b", "a"] = ["a", "b"] ∧
      (normalizeMappedNamespaces ["b", "a"]).Perm ["b", "a"] ∧
      (normalizeMappedNamespaces ["b", "a"]).Sorted (· ≤ ·) ∧
      normalizeMappedNamespaces ["b", "a"] = normalizeMappedNamespaces ["a", "b"] ∧
      normalizeMappedNamespaces (normalizeMappedNamespaces ["b", "a"])
        = normalizeMappedNamespaces ["b", "a"] := by
  have h := normalizeMappedNamespaces_canonical ["b", "a"] ["a", "b"] (List.Perm.swap _ _ _)
  refine ⟨List.Perm.swap _ _ _, by decide, ?_, h.2.2.1 (by decide), h.2.2.2.1, h.2.2.2.2.1,
    h.2.2.2.2.2⟩
  simp [normalizeMappedNamespaces, List.insertionSort, List.orderedInsert, str_le_iff]
  decide

/-- As long as the caller accepts the messages, the loop passes them on and goes on with the
rest of the coordinator's stream. -/
theorem watchLoop_msgs {M : Type} (srv : ServerStream M) (msgs : List M)
    (rest : List (Except GoError M)) :
    ∀ n : Nat, (∀ i m, msgs[i]? = some m → srv.Send (n + i) m = none) →
      watchLoop srv (msgs.map .ok ++ rest) n
        = (msgs ++ (watchLoop srv rest (n + msgs.length)).1,
           (watchLoop srv rest (n + msgs.length)).2) := by
  induction msgs with
  | nil => intro n _; simp
  | cons a msgs ih =>
    intro n hs
    have h0 : srv.Send n a = none := by simpa using hs 0 a (by simp)
    have hrest : ∀ i m, msgs[i]? = some m → srv.Send (n + 1 + i) m = none := by
      intro i m hm
      have := hs (i + 1) m (by simpa using hm)
      rwa [show n + (i + 1) = n + 1 + i by omega] at this
    have ih2 := ih (n + 1) hrest
    have hlen : n + 1 + msgs.length = n + (msgs.length + 1) := by omega
    rw [hlen] at ih2
    have hstep : watchLoop srv (.ok a :: (msgs.map .ok ++ rest)) n
        = ((watchLoop srv (msgs.map .ok ++ rest) (n + 1)).1.cons a,
           (watchLoop srv (msgs.map .ok ++ rest) (n + 1)).2) := by
      simp only [watchLoop, h0]
    simp only [List.map_cons, List.cons_append, hstep, ih2, List.length_cons]

/-- C8, as stated, fails: the coordinator delivers `m1`, the caller's context has ended and the
Send of `m1` to the caller fails; each of the four subscriptions then returns the error of the
Send, not nil. -/
theorem watch_cancelled_send_counterexample :
    (∀ n, (goneCaller.ctxErr n).isSome = true) ∧
      proxyA.WatchAgents "session" goneCaller
        = .returned (["m1"], some (some (.other "transport is closing"))) ∧
      proxyA.WatchIntercepts "session" goneCaller
        = .returned (["m1"], some (some (.other "transport is closing"))) ∧
      proxyA.WatchDial "session" goneCaller
        = .returned (["m1"], some (some (.other "transport is closing"))) ∧
      proxyA.WatchClusterInfo "session" goneCaller
        = .returned (["m1"], some (some (.other "transport is closing"))) :=
  ⟨fun _ => rfl, rfl, rfl, rfl, rfl⟩

/-- C8, amended: in each streaming subscription of the proxy, while the caller accepts the
messages `msgs` received from the coordinator, they are passed to the caller one at a time and
in order, and nothing else is; then (1) if the coordinator's stream has nothing more yet, the
subscription is still running with exactly `msgs` sent; (2) if the next Recv fails with `err`,
the subscription returns nil when `err` is end-of-stream or the caller's context has ended, and
returns `err` otherwise; (3) if the next message `m` is received and its Send fails with `e`,
the subscription returns `e`, whether or not the caller's context has ended; (4) if the stream
cannot be opened the subscription returns the error of the open.  The coordinator client of the
proxy is `client`. -/
theorem watch_relays_in_order (client : ManagerClient) (arg : String)
    (srv : ServerStream String) (msgs : List String)
    (hs : ∀ i m, msgs[i]? = some m → srv.Send i m = none) :
    (mgrProxy.WatchAgents { client := some client } arg srv
        = .returned (watch (client.WatchAgents arg) srv) ∧
      mgrProxy.WatchIntercepts { client := some client } arg srv
        = .returned (watch (client.WatchIntercepts arg) srv) ∧
      mgrProxy.WatchDial { client := some client } arg srv
        = .returned (watch (client.WatchDial arg) srv) ∧
      mgrProxy.WatchClusterInfo { client := some client } arg srv
        = .returned (watch (client.WatchClusterInfo arg) srv)) ∧
    watch (.ok (msgs.map .ok)) srv = (msgs, none) ∧
    (∀ err tail, watch (.ok (msgs.map .ok ++ .error err :: tail)) srv
      = (msgs, if err = .EOF ∨ (srv.ctxErr msgs.length).isSome then some none
               else some (some err))) ∧
    (∀ m e tail, srv.Send msgs.length m = some e →
      watch (.ok (msgs.map .ok ++ .ok m :: tail)) srv = (msgs ++ [m], some (some e))) ∧
    (∀ err, watch (.error err) srv = ([], some (some err))) := by
  have hs0 : ∀ i m, msgs[i]? = some m → srv.Send (0 + i) m = none := by
    intro i m hm; simpa using hs i m hm
  refine ⟨⟨rfl, rfl, rfl, rfl⟩, ?_, ?_, ?_, ?_⟩
  · have := watchLoop_msgs srv msgs [] 0 hs0
    simpa [watch, watchLoop] using this
  · intro err tail
    have := watchLoop_msgs srv msgs (.error err :: tail) 0 hs0
    simp only [watch, this, watchLoop, Nat.zero_add]
    split <;> simp
  · intro m e tail he
    have := watchLoop_msgs srv msgs (.ok m :: tail) 0 hs0
    simp only [watch, this, watchLoop, Nat.zero_add, he]
  · intro err
    rfl

/-- Witness of C8 amended: a live caller receives `m1`, `m2`; the subscription ends without
error on end-of-stream and with the transport error otherwise. -/
theorem watch_relays_in_order_witness :
    watch (.ok [.ok "m1", .ok "m2", .error .EOF]) liveCaller = (["m1", "m2"], some none) ∧
    watch (.ok [.ok "m1", .ok "m2", .error (.other "unavailable")]) liveCaller
      = (["m1", "m2"], some (some (.other "unavailable"))) ∧
    watch (.ok [.ok "m1", .ok "m2"]) liveCaller = (["m1", "m2"], none) := by
  have h := watch_relays_in_order
    { WatchAgents := fun _ => .ok [], WatchIntercepts := fun _ => .ok [],
      WatchDial := fun _ => .ok [], WatchClusterInfo := fun _ => .ok [] }
    "session" liveCaller ["m1", "m2"] (fun _ _ _ => rfl)
  refine ⟨?_, ?_, ?_⟩
  · simpa using h.2.2.1 .EOF []
  · simpa [liveCaller] using h.2.2.1 (.other "unavailable") []
  · simpa using h.2.1

/-- A body under the deferred call recovery never lets a panic leave the operation. -/
theorem recovered_returns {α : Type} (conv : Fault → GoError)
    (body : Completion (Option α × Option GoError)) :
    ∃ result err, recovered conv body = .returned result err := by
  cases body with
  | returned a => exact ⟨a.1, _, rfl⟩
  | panicked r => exact ⟨none, _, rfl⟩

/-- C9 fails on the code for `service.List`: in the disconnected state, where `s.trafficMgr` is
nil, List panics on reading `s.trafficMgr.managerClient` and, having no deferred call recovery,
lets the panic leave the operation, for every request.  The operations with the deferred
recovery (Connect, CreateIntercept, RemoveIntercept, Uninstall) return to the caller in every
state, also when a method called on the nil traffic manager panics, and so do Version and
Quit. -/
theorem service_List_disconnected_propagates (conv : Fault → GoError) (O : OpsCollab)
    (K : Collab) (s : service) (cr : ConnectRequest) (arg lr : String) :
    disconnected.trafficMgr = none ∧
      service.List O disconnected lr = .propagated nilDereference ∧
      service.Uninstall panicText opsA disconnected arg
        = .returned none (some (panicText nilDereference)) ∧
      (∃ result err, service.Version O s = .returned result err) ∧
      (∃ result err, (service.Connect conv K s cr).2 = .returned result err) ∧
      (∃ result err, service.CreateIntercept conv O s arg = .returned result err) ∧
      (∃ result err, service.RemoveIntercept conv O s arg = .returned result err) ∧
      (∃ result err, service.Uninstall conv O s arg = .returned result err) ∧
      (∃ result err, (service.Quit s).2 = .returned result err) := by
  refine ⟨rfl, rfl, rfl, ⟨_, _, rfl⟩, recovered_returns conv _, ?_, ?_,
    recovered_returns conv _, ⟨_, _, rfl⟩⟩
  · unfold service.CreateIntercept
    split
    split
    · exact ⟨_, _, rfl⟩
    · exact recovered_returns conv _
  · unfold service.RemoveIntercept
    split
    split
    · exact ⟨_, _, rfl⟩
    · exact recovered_returns conv _

/-- C10: `callRecovery` returns `err` itself whenever `err` is not nil, whatever was recovered
(and still logs a recovered fault); with a nil `err` it returns the error converted from a
recovered fault, and nil when nothing was recovered.  Hence a body that panics under the
deferred recovery returns a non-nil error, and so does `service.Connect` when `connect`
panics. -/
theorem callRecovery_keeps_error (conv : Fault → GoError) (r : Option Fault) (f : Fault)
    (e : GoError) (K : Collab) (s : service) (cr : ConnectRequest)
    (hpanic : (connect K s cr).2 = .panicked f) :
    (callRecovery conv r (some e)).1 = some e ∧
      (callRecovery conv (some f) none).1 = some (conv f) ∧
      (callRecovery conv none none).1 = none ∧
      (callRecovery conv (some f) (some e)).2 = [conv f, e] ∧
      (recovered conv (.panicked f) : Reply ConnectInfo) = .returned none (some (conv f)) ∧
      (service.Connect conv K s cr).2 = .returned none (some (conv f)) ∧
      (service.Connect conv K s cr).1 = (connect K s cr).1 := by
  refine ⟨?_, rfl, rfl, rfl, rfl, ?_, rfl⟩
  · cases r <;> rfl
  · simp [service.Connect, hpanic, Completion.bind, recovered, callRecovery, PanicToError]

/-- Witness of C10: with only the tracker set and a bridge check that panics on a nil bridge,
`connect` panics and `service.Connect` returns the converted error. -/
theorem callRecovery_keeps_error_witness :
    (connect goodCollab trackerOnly reqA).2 = .panicked "nil bridge" ∧
      (callRecovery panicText (some "boom") (some GoError.EOF)).1 = some GoError.EOF ∧
      (service.Connect panicText goodCollab trackerOnly reqA).2
        = .returned none (some (panicText "nil bridge")) := by
  have h := callRecovery_keeps_error panicText (some "boom") "nil bridge" GoError.EOF
    goodCollab trackerOnly reqA rfl
  exact ⟨rfl, h.1, h.2.2.2.2.2.1⟩

/-- The invariant holds when the loops start. -/
theorem Direction.start_inv (src : List (Except GoError Frame)) (se : Nat → Option GoError)
    (cs : Bool) (c : Bool) : Direction.Inv src se c (Direction.start src se cs) where
  sendErr_eq := rfl
  frames := ⟨[], by simp [Direction.start, sendState.inflight, recvState.offered]⟩
  source := ⟨src, by simp [Direction.start]⟩
  sender := by simp [Direction.start]
  receiver := by simp [Direction.start]

/-- The invariant survives the end of the context. -/
theorem Direction.Inv.cancel {src : List (Except GoError Frame)} {se : Nat → Option GoError}
    {c : Bool} {d : Direction} (h : Direction.Inv src se c d) : Direction.Inv src se true d where
  sendErr_eq := h.sendErr_eq
  frames := by
    obtain ⟨tail, h1, h2, -⟩ := h.frames
    exact ⟨tail, h1, h2, by simp⟩
  source := h.source
  sender := fun _ => Or.inl rfl
  receiver := fun _ => Or.inl rfl

/-- Every move of a direction keeps the invariant. -/
theorem Direction.pump_step_inv {src : List (Except GoError Frame)} {se : Nat → Option GoError}
    {c : Bool} {d d2 : Direction} (a : PumpStep) (h : Direction.Inv src se c d)
    (hs : d.step c a = some d2) : Direction.Inv src se c d2 := by
  obtain ⟨h1, ⟨tail, h2, h3, h4⟩, ⟨rest, h5, h6⟩, h7, h8⟩ := h
  obtain ⟨incoming, sendErr, hasCloseSend, recvLoop, sendLoop, read, passed, closeSent⟩ := d
  simp only at h1 h2 h3 h4 h5 h6 h7 h8
  cases a
  case recv =>
    cases recvLoop <;> simp only [Direction.step] at hs <;> try contradiction
    cases incoming with
    | nil => simp at hs
    | cons r rest2 =>
      cases r with
      | ok payload =>
        simp only [Option.some.injEq] at hs
        subst hs
        have ht : tail = [] := by simpa [recvState.offered] using h3
        have hr : rest = .ok payload :: rest2 := by simpa using h6
        subst ht hr
        refine ⟨h1, ⟨[payload], ?_, ?_, ?_⟩, ⟨rest2, ?_, ?_⟩, h7, by simp⟩
        · simp [h2]
        · simp [recvState.offered]
        · simp
        · simp [h5]
        · simp
      | error e =>
        simp only [Option.some.injEq] at hs
        subst hs
        have ht : tail = [] := by simpa [recvState.offered] using h3
        subst ht
        have hr : rest = .error e :: rest2 := by simpa using h6
        refine ⟨h1, ⟨[], ?_, ?_, ?_⟩, ⟨rest, h5, ?_⟩, h7, ?_⟩
        · simpa using h2
        · simp
        · simp
        · simp
        · intro _
          right
          exact ⟨e, by rw [h5, hr]; simp⟩
  case handOver =>
    cases recvLoop <;> cases sendLoop <;> simp only [Direction.step] at hs <;>
      try contradiction
    rename_i payload
    simp only [Option.some.injEq] at hs
    subst hs
    have ht : tail = [payload] := by simpa [recvState.offered] using h3
    subst ht
    refine ⟨h1, ⟨[], ?_, ?_, ?_⟩, ⟨rest, h5, ?_⟩, ?_, ?_⟩
    · simpa [sendState.inflight] using h2
    · simp [recvState.offered]
    · simp
    · simpa using h6
    · simp
    · simp
  case recvCancelled =>
    cases recvLoop <;> simp only [Direction.step] at hs <;> try contradiction
    rename_i payload
    cases c with
    | false => simp at hs
    | true =>
      simp only [if_true, Option.some.injEq] at hs
      subst hs
      exact ⟨h1, ⟨tail, h2, by simp, by simp⟩, ⟨rest, h5, by simp⟩, h7, fun _ => Or.inl rfl⟩
  case sendCancelled =>
    cases sendLoop <;> simp only [Direction.step] at hs <;> try contradiction
    cases c with
    | false => simp at hs
    | true =>
      simp only [if_true, Option.some.injEq] at hs
      subst hs
      exact ⟨h1, ⟨tail, by simpa [sendState.inflight] using h2, h3, h4⟩, ⟨rest, h5, h6⟩,
        fun _ => Or.inl rfl, h8⟩
  case send =>
    cases sendLoop <;> simp only [Direction.step] at hs <;> try contradiction
    rename_i payload
    cases hse : sendErr passed.length with
    | some e =>
      simp only [hse, Option.some.injEq] at hs
      subst hs
      refine ⟨h1, ⟨tail, by simpa [sendState.inflight] using h2, h3, h4⟩, ⟨rest, h5, h6⟩, ?_,
        h8⟩
      intro _
      right
      exact ⟨passed.length, by rw [← h1, hse]; simp⟩
    | none =>
      simp only [hse, Option.some.injEq] at hs
      subst hs
      exact ⟨h1, ⟨tail, by simpa [sendState.inflight] using h2, h3, h4⟩, ⟨rest, h5, h6⟩,
        by simp, h8⟩

/-- A direction whose two loops have returned makes no move. -/
theorem Direction.step_ended (c : Bool) (d : Direction) (a : PumpStep)
    (h1 : d.recvLoop = .ended) (h2 : d.sendLoop = .ended) : d.step c a = none := by
  cases a <;> simp [Direction.step, h1, h2]

/-- Every move of the tunnel keeps the invariant. -/
theorem TunnelState.tunnel_step_inv {fromMgr fromClient : List (Except GoError Frame)}
    {mgrSend clientSend : Nat → Option GoError} {t t2 : TunnelState} (a : TunnelStep)
    (h : TunnelState.Inv fromMgr fromClient mgrSend clientSend t) (hs : t.step a = some t2) :
    TunnelState.Inv fromMgr fromClient mgrSend clientSend t2 := by
  cases a with
  | cancel =>
    simp only [TunnelState.step, Option.some.injEq] at hs
    subst hs
    exact ⟨h.mgrToClient.cancel, h.clientToMgr.cancel, h.waited⟩
  | mgrToClient a =>
    simp only [TunnelState.step] at hs
    cases hd : t.mgrToClient.step t.ctxDone a with
    | none => simp [hd] at hs
    | some d =>
    simp only [hd, Option.map, Option.some.injEq] at hs
    subst hs
    refine ⟨Direction.pump_step_inv a h.mgrToClient hd, h.clientToMgr, ?_⟩
    intro hr
    have hall := h.waited hr
    simp only [TunnelState.allEnded, Bool.and_eq_true, beq_iff_eq] at hall
    rw [Direction.step_ended _ _ a hall.1.1.1 hall.1.1.2] at hd
    contradiction
  | clientToMgr a =>
    simp only [TunnelState.step] at hs
    cases hd : t.clientToMgr.step t.ctxDone a with
    | none => simp [hd] at hs
    | some d =>
    simp only [hd, Option.map, Option.some.injEq] at hs
    subst hs
    refine ⟨h.mgrToClient, Direction.pump_step_inv a h.clientToMgr hd, ?_⟩
    intro hr
    have hall := h.waited hr
    simp only [TunnelState.allEnded, Bool.and_eq_true, beq_iff_eq] at hall
    rw [Direction.step_ended _ _ a hall.1.2 hall.2] at hd
    contradiction
  | wait =>
    simp only [TunnelState.step] at hs
    split at hs
    · rename_i hw
      simp only [Option.some.injEq] at hs
      subst hs
      simp only [Bool.and_eq_true] at hw
      exact ⟨h.mgrToClient, h.clientToMgr, fun _ => hw.1⟩
    · contradiction

/-- Every sequence of moves keeps the invariant; without the move `cancel` the context stays
live. -/
theorem TunnelState.run_inv {fromMgr fromClient : List (Except GoError Frame)}
    {mgrSend clientSend : Nat → Option GoError} (steps : List TunnelStep) :
    ∀ t t2 : TunnelState, TunnelState.Inv fromMgr fromClient mgrSend clientSend t →
      t.run steps = some t2 →
      TunnelState.Inv fromMgr fromClient mgrSend clientSend t2 ∧
        (t.ctxDone = false → TunnelStep.cancel ∉ steps → t2.ctxDone = false) := by
  induction steps with
  | nil =>
    intro t t2 h hr
    simp only [TunnelState.run, Option.some.injEq] at hr
    subst hr
    exact ⟨h, fun hc _ => hc⟩
  | cons a rest ih =>
    intro t t2 h hr
    simp only [TunnelState.run, Option.bind_eq_some] at hr
    obtain ⟨t1, h1, h2⟩ := hr
    obtain ⟨hinv, hctx⟩ := ih t1 t2 (TunnelState.tunnel_step_inv a h h1) h2
    refine ⟨hinv, ?_⟩
    intro hc hn
    simp only [List.mem_cons, not_or] at hn
    apply hctx _ hn.2
    cases a with
    | cancel => exact absurd rfl hn.1
    | mgrToClient a =>
      simp only [TunnelState.step] at h1
      cases hd : t.mgrToClient.step t.ctxDone a with
      | none => simp [hd] at h1
      | some d =>
        simp only [hd, Option.map, Option.some.injEq] at h1
        subst h1
        exact hc
    | clientToMgr a =>
      simp only [TunnelState.step] at h1
      cases hd : t.clientToMgr.step t.ctxDone a with
      | none => simp [hd] at h1
      | some d =>
        simp only [hd, Option.map, Option.some.injEq] at h1
        subst h1
        exact hc
    | wait =>
      simp only [TunnelState.step] at h1
      split at h1
      · simp only [Option.some.injEq] at h1
        subst h1
        exact hc
      · contradiction

/-- In a direction that can make no move, with a live context and no failing Send, every frame
read has been passed to Send; if moreover no Recv fails, these are all the frames of the
source. -/
theorem Direction.quiescent_passed {src : List (Except GoError Frame)}
    {se : Nat → Option GoError} {d : Direction} (h : Direction.Inv src se false d)
    (hse : ∀ n, se n = none) (hq : ∀ a, d.step false a = none) :
    d.passed = d.read ∧ ((∀ r ∈ src, ∃ f, r = Except.ok f) → d.passed.map .ok = src) := by
  obtain ⟨h1, ⟨tail, h2, h3, h4⟩, ⟨rest, h5, h6⟩, h7, h8⟩ := h
  obtain ⟨incoming, sendErr, hasCloseSend, recvLoop, sendLoop, read, passed, closeSent⟩ := d
  simp only at h1 h2 h3 h4 h5 h6 h7 h8 ⊢
  cases sendLoop with
  | sending payload =>
    have := hq .send
    simp only [Direction.step] at this
    split at this <;> contradiction
  | ended =>
    rcases h7 rfl with h | ⟨n, hn⟩
    · contradiction
    · exact absurd (hse n) hn
  | selecting =>
    cases recvLoop with
    | offering payload =>
      have := hq .handOver
      simp [Direction.step] at this
    | receiving =>
      cases incoming with
      | cons r rest2 =>
        have := hq .recv
        cases r <;> simp [Direction.step] at this
      | nil =>
        have ht : tail = [] := by simpa [recvState.offered] using h3
        have hr : rest = [] := by simpa using h6
        subst ht hr
        simp only [sendState.inflight, List.append_nil] at h2 h5
        exact ⟨h2.symm, fun _ => by rw [h5, h2]⟩
    | ended =>
      have ht : tail = [] := by simpa using h4
      subst ht
      simp only [sendState.inflight, List.append_nil] at h2
      refine ⟨h2.symm, fun hok => ?_⟩
      rcases h8 rfl with h | ⟨e, he⟩
      · contradiction
      · obtain ⟨f, hf⟩ := hok _ he
        contradiction

/-- Every move of a direction uses up one of the moves left. -/
theorem Direction.step_movesLeft {c : Bool} {d d2 : Direction} (a : PumpStep)
    (hs : d.step c a = some d2) : d2.movesLeft < d.movesLeft := by
  obtain ⟨incoming, sendErr, hasCloseSend, recvLoop, sendLoop, read, passed, closeSent⟩ := d
  cases a
  case recv =>
    cases recvLoop <;> simp only [Direction.step] at hs <;> try contradiction
    cases incoming with
    | nil => simp at hs
    | cons r rest2 =>
      cases r <;> simp only [Option.some.injEq] at hs <;> subst hs <;>
        simp [Direction.movesLeft, recvState.weight] <;> omega
  case handOver =>
    cases recvLoop <;> cases sendLoop <;> simp only [Direction.step] at hs <;>
      try contradiction
    simp only [Option.some.injEq] at hs
    subst hs
    simp [Direction.movesLeft, recvState.weight, sendState.weight]
  case recvCancelled =>
    cases recvLoop <;> simp only [Direction.step] at hs <;> try contradiction
    cases c with
    | false => simp at hs
    | true =>
      simp only [if_true, Option.some.injEq] at hs
      subst hs
      simp [Direction.movesLeft, recvState.weight]
  case sendCancelled =>
    cases sendLoop <;> simp only [Direction.step] at hs <;> try contradiction
    cases c with
    | false => simp at hs
    | true =>
      simp only [if_true, Option.some.injEq] at hs
      subst hs
      simp [Direction.movesLeft, sendState.weight]
  case send =>
    cases sendLoop <;> simp only [Direction.step] at hs <;> try contradiction
    cases hse : sendErr passed.length with
    | some e =>
      simp only [hse, Option.some.injEq] at hs
      subst hs
      simp [Direction.movesLeft, sendState.weight]
    | none =>
      simp only [hse, Option.some.injEq] at hs
      subst hs
      simp [Direction.movesLeft, sendState.weight]

/-- Every move of the tunnel other than the end of the context uses up one of the moves
left, and the end of the context uses none. -/
theorem TunnelState.tunnel_step_movesLeft {t t2 : TunnelState} (a : TunnelStep)
    (hs : t.step a = some t2) :
    (if a = .cancel then 0 else 1) + t2.movesLeft ≤ t.movesLeft := by
  cases a with
  | cancel =>
    simp only [TunnelState.step, Option.some.injEq] at hs
    subst hs
    simp [TunnelState.movesLeft]
  | mgrToClient a =>
    simp only [TunnelState.step] at hs
    cases hd : t.mgrToClient.step t.ctxDone a with
    | none => simp [hd] at hs
    | some d =>
      simp only [hd, Option.map, Option.some.injEq] at hs
      subst hs
      have := Direction.step_movesLeft a hd
      simp only [TunnelState.movesLeft, reduceCtorEq, if_false]
      omega
  | clientToMgr a =>
    simp only [TunnelState.step] at hs
    cases hd : t.clientToMgr.step t.ctxDone a with
    | none => simp [hd] at hs
    | some d =>
      simp only [hd, Option.map, Option.some.injEq] at hs
      subst hs
      have := Direction.step_movesLeft a hd
      simp only [TunnelState.movesLeft, reduceCtorEq, if_false]
      omega
  | wait =>
    simp only [TunnelState.step] at hs
    split at hs
    · rename_i hw
      simp only [Option.some.injEq] at hs
      subst hs
      simp only [Bool.and_eq_true, Bool.not_eq_true'] at hw
      simp only [TunnelState.movesLeft, hw.2, reduceCtorEq, if_false, if_true,
        Bool.false_eq_true]
      omega
    · contradiction

/-- The moves of a run other than the end of the context are bounded by the moves left. -/
theorem TunnelState.run_movesLeft (steps : List TunnelStep) :
    ∀ t t2 : TunnelState, t.run steps = some t2 →
      (steps.filter fun a => decide (a ≠ TunnelStep.cancel)).length + t2.movesLeft
        ≤ t.movesLeft := by
  induction steps with
  | nil =>
    intro t t2 hr
    simp only [TunnelState.run, Option.some.injEq] at hr
    subst hr
    simp
  | cons a rest ih =>
    intro t t2 hr
    simp only [TunnelState.run, Option.bind_eq_some] at hr
    obtain ⟨t1, h1, h2⟩ := hr
    have hstep := TunnelState.tunnel_step_movesLeft a h1
    have hrest := ih t1 t2 h2
    by_cases ha : a = .cancel
    · subst ha
      simp only [if_true] at hstep
      rw [List.filter_cons_of_neg (by simp)]
      omega
    · simp only [ha, if_false] at hstep
      rw [List.filter_cons_of_pos (by simpa using ha), List.length_cons]
      omega

/-- Every sequence of moves of a direction keeps its invariant. -/
theorem Direction.pump_run_inv {src : List (Except GoError Frame)} {se : Nat → Option GoError}
    {c : Bool} (as : List PumpStep) :
    ∀ d d2 : Direction, Direction.Inv src se c d → Direction.run c d as = some d2 →
      Direction.Inv src se c d2 := by
  induction as with
  | nil =>
    intro d d2 h hr
    simp only [Direction.run, Option.some.injEq] at hr
    subst hr
    exact h
  | cons a rest ih =>
    intro d d2 h hr
    simp only [Direction.run, Option.bind_eq_some] at hr
    obtain ⟨d1, h1, h2⟩ := hr
    exact ih d1 d2 (Direction.pump_step_inv a h h1) h2

/-- A move of a direction only adds to the frames read. -/
theorem Direction.step_read {c : Bool} {d d2 : Direction} (a : PumpStep)
    (hs : d.step c a = some d2) : d.read <+: d2.read := by
  obtain ⟨incoming, sendErr, hasCloseSend, recvLoop, sendLoop, read, passed, closeSent⟩ := d
  cases a
  case recv =>
    cases recvLoop <;> simp only [Direction.step] at hs <;> try contradiction
    cases incoming with
    | nil => simp at hs
    | cons r rest2 =>
      cases r <;> simp only [Option.some.injEq] at hs <;> subst hs <;> simp
  case handOver =>
    cases recvLoop <;> cases sendLoop <;> simp only [Direction.step] at hs <;>
      try contradiction
    simp only [Option.some.injEq] at hs
    subst hs
    simp
  case recvCancelled =>
    cases recvLoop <;> simp only [Direction.step] at hs <;> try contradiction
    cases c with
    | false => simp at hs
    | true =>
      simp only [if_true, Option.some.injEq] at hs
      subst hs
      simp
  case sendCancelled =>
    cases sendLoop <;> simp only [Direction.step] at hs <;> try contradiction
    cases c with
    | false => simp at hs
    | true =>
      simp only [if_true, Option.some.injEq] at hs
      subst hs
      simp
  case send =>
    cases sendLoop <;> simp only [Direction.step] at hs <;> try contradiction
    cases hse : sendErr passed.length with
    | some e =>
      simp only [hse, Option.some.injEq] at hs
      subst hs
      simp
    | none =>
      simp only [hse, Option.some.injEq] at hs
      subst hs
      simp

/-- A sequence of moves of a direction only adds to the frames read. -/
theorem Direction.run_read {c : Bool} (as : List PumpStep) :
    ∀ d d2 : Direction, Direction.run c d as = some d2 → d.read <+: d2.read := by
  induction as with
  | nil =>
    intro d d2 hr
    simp only [Direction.run, Option.some.injEq] at hr
    subst hr
    exact List.prefix_refl _
  | cons a rest ih =>
    intro d d2 hr
    simp only [Direction.run, Option.bind_eq_some] at hr
    obtain ⟨d1, h1, h2⟩ := hr
    exact (Direction.step_read a h1).trans (ih d1 d2 h2)

/-- With a live context, a direction whose `sendLoop` waits and whose `recvLoop` has returned
or is blocked in Recv can make no move. -/
theorem Direction.waiting_no_step (d : Direction)
    (hr : d.recvLoop = .ended ∨ (d.recvLoop = .receiving ∧ d.incoming = []))
    (hs : d.sendLoop = .selecting) : ∀ a, d.step false a = none := by
  intro a
  rcases hr with hr | ⟨hr, hi⟩
  · cases a <;> simp [Direction.step, hr, hs]
  · cases a <;> simp [Direction.step, hr, hs, hi]

/-- Running two sequences of moves one after the other. -/
theorem Direction.run_append {c : Bool} (as bs : List PumpStep) :
    ∀ d : Direction, Direction.run c d (as ++ bs)
      = (Direction.run c d as).bind fun d2 => Direction.run c d2 bs := by
  induction as with
  | nil => intro d; simp [Direction.run]
  | cons a rest ih =>
    intro d
    cases h : d.step c a with
    | none => simp [Direction.run, h]
    | some d1 => simp [Direction.run, h, ih d1]

/-- When no Send fails, two waiting loops can relay everything the source has, up to its
first error, and then can make no further move. -/
theorem Direction.run_relaySteps (inc : List (Except GoError Frame)) :
    ∀ d : Direction, d.incoming = inc → d.recvLoop = .receiving → d.sendLoop = .selecting →
      (∀ n, d.sendErr n = none) →
      ∃ d2, Direction.run false d (relaySteps inc) = some d2 ∧ ∀ a, d2.step false a = none := by
  induction inc with
  | nil =>
    intro d hi hr hs _
    exact ⟨d, rfl, Direction.waiting_no_step d (Or.inr ⟨hr, hi⟩) hs⟩
  | cons r rest ih =>
    intro d hi hr hs hse
    obtain ⟨incoming, sendErr, hasCloseSend, recvLoop, sendLoop, read, passed, closeSent⟩ := d
    simp only at hi hr hs hse
    subst hi hr hs
    cases r with
    | error e =>
      refine ⟨Direction.mk rest sendErr hasCloseSend .ended .selecting read passed closeSent,
        ?_, ?_⟩
      · simp [relaySteps, Direction.run, Direction.step]
      · exact Direction.waiting_no_step _ (Or.inl rfl) rfl
    | ok payload =>
      obtain ⟨d2, h1, h2⟩ := ih
        { incoming := rest, sendErr := sendErr, hasCloseSend := hasCloseSend,
          recvLoop := .receiving, sendLoop := .selecting, read := read ++ [payload],
          passed := passed ++ [payload], closeSent := closeSent } rfl rfl rfl hse
      refine ⟨d2, ?_, h2⟩
      simp only [relaySteps, List.cons_append, List.nil_append, Direction.run, Direction.step,
        Option.some_bind, hse]
      exact h1

/-- When no Send fails and the `sendLoop` has not returned, the schedule `finish` can be run
to its end, after which the direction can make no further move. -/
theorem Direction.run_finish (d : Direction) (hse : ∀ n, d.sendErr n = none)
    (hs : d.sendLoop ≠ .ended) :
    ∃ d2, Direction.run false d d.finish = some d2 ∧ ∀ a, d2.step false a = none := by
  obtain ⟨incoming, sendErr, hasCloseSend, recvLoop, sendLoop, read, passed, closeSent⟩ := d
  simp only at hse hs
  cases sendLoop with
  | ended => exact absurd rfl hs
  | selecting =>
    cases recvLoop with
    | ended =>
      exact ⟨_, rfl, Direction.waiting_no_step _ (Or.inl rfl) rfl⟩
    | receiving =>
      simpa [Direction.finish, Direction.flush] using
        Direction.run_relaySteps incoming _ rfl rfl rfl hse
    | offering g =>
      obtain ⟨d2, h1, h2⟩ := Direction.run_relaySteps incoming
        { incoming := incoming, sendErr := sendErr, hasCloseSend := hasCloseSend,
          recvLoop := .receiving, sendLoop := .selecting, read := read,
          passed := passed ++ [g], closeSent := closeSent } rfl rfl rfl hse
      refine ⟨d2, ?_, h2⟩
      simp only [Direction.finish, Direction.flush, List.nil_append, List.cons_append,
        Direction.run, Direction.step, Option.some_bind, hse]
      exact h1
  | sending f =>
    cases recvLoop with
    | ended =>
      refine ⟨Direction.mk incoming sendErr hasCloseSend .ended .selecting read
        (passed ++ [f]) closeSent, ?_, ?_⟩
      · simp [Direction.finish, Direction.flush, Direction.run, Direction.step, hse]
      · exact Direction.waiting_no_step _ (Or.inl rfl) rfl
    | receiving =>
      obtain ⟨d2, h1, h2⟩ := Direction.run_relaySteps incoming
        { incoming := incoming, sendErr := sendErr, hasCloseSend := hasCloseSend,
          recvLoop := .receiving, sendLoop := .selecting, read := read,
          passed := passed ++ [f], closeSent := closeSent } rfl rfl rfl hse
      refine ⟨d2, ?_, h2⟩
      simp only [Direction.finish, Direction.flush, List.nil_append, List.cons_append,
        List.append_nil, Direction.run, Direction.step, Option.some_bind, hse]
      exact h1
    | offering g =>
      obtain ⟨d2, h1, h2⟩ := Direction.run_relaySteps incoming
        { incoming := incoming, sendErr := sendErr, hasCloseSend := hasCloseSend,
          recvLoop := .receiving, sendLoop := .selecting, read := read,
          passed := passed ++ [f] ++ [g], closeSent := closeSent } rfl rfl rfl hse
      refine ⟨d2, ?_, h2⟩
      simp only [Direction.finish, Direction.flush, List.nil_append, List.cons_append,
        Direction.run, Direction.step, Option.some_bind, hse]
      exact h1

/-- With a live context and no failing Send, the schedule `finish` carries every frame read,
and every frame the source still has before its first error, to Send. -/
theorem Direction.finish_delivers {src : List (Except GoError Frame)}
    {se : Nat → Option GoError} {d : Direction} (h : Direction.Inv src se false d)
    (hse : ∀ n, se n = none) :
    ∃ d2, Direction.run false d d.finish = some d2 ∧ (∀ a, d2.step false a = none) ∧
      d.read <+: d2.read ∧ d2.passed = d2.read ∧
      ((∀ r ∈ src, ∃ f, r = Except.ok f) → d2.passed.map .ok = src) := by
  have hse2 : ∀ n, d.sendErr n = none := by
    intro n; rw [h.sendErr_eq]; exact hse n
  have hs : d.sendLoop ≠ .ended := by
    intro hs
    rcases h.sender hs with hc | ⟨n, hn⟩
    · contradiction
    · exact hn (hse n)
  obtain ⟨d2, h1, h2⟩ := Direction.run_finish d hse2 hs
  have hinv := Direction.pump_run_inv d.finish d d2 h h1
  have hq := Direction.quiescent_passed hinv hse h2
  exact ⟨d2, h1, h2, Direction.run_read d.finish d d2 h1, hq.1, hq.2⟩

/-- Moves of the direction from the caller to the manager, as moves of the tunnel. -/
theorem TunnelState.run_clientToMgr (as : List PumpStep) :
    ∀ (t : TunnelState) (d2 : Direction),
      Direction.run t.ctxDone t.clientToMgr as = some d2 →
      t.run (as.map .clientToMgr) = some { t with clientToMgr := d2 } := by
  induction as with
  | nil =>
    intro t d2 h
    simp only [Direction.run, Option.some.injEq] at h
    subst h
    rfl
  | cons a rest ih =>
    intro t d2 h
    simp only [Direction.run, Option.bind_eq_some] at h
    obtain ⟨d1, h1, h2⟩ := h
    have := ih { t with clientToMgr := d1 } d2 h2
    simp only [List.map_cons, TunnelState.run, TunnelState.step, h1, Option.map,
      Option.some_bind]
    exact this

/-- Moves of the direction from the manager to the caller, as moves of the tunnel. -/
theorem TunnelState.run_mgrToClient (as : List PumpStep) :
    ∀ (t : TunnelState) (d2 : Direction),
      Direction.run t.ctxDone t.mgrToClient as = some d2 →
      t.run (as.map .mgrToClient) = some { t with mgrToClient := d2 } := by
  induction as with
  | nil =>
    intro t d2 h
    simp only [Direction.run, Option.some.injEq] at h
    subst h
    rfl
  | cons a rest ih =>
    intro t d2 h
    simp only [Direction.run, Option.bind_eq_some] at h
    obtain ⟨d1, h1, h2⟩ := h
    have := ih { t with mgrToClient := d1 } d2 h2
    simp only [List.map_cons, TunnelState.run, TunnelState.step, h1, Option.map,
      Option.some_bind]
    exact this

/-- C7: in every state a started tunnel reaches, by any interleaving of its four loops and of
the end of the caller's context, and for each direction independently: the frames passed to
the destination's Send are a prefix of the frames read by the `recvLoop`, which are the first
results of the source, in the same order; Tunnel has returned only if all four loops have
returned; the moves made, the end of the context apart, are bounded by three per result of the
two sources plus five, so the loops cannot go on moving for ever without reading; and when the
context has not ended and no Send of the direction fails, (a) in a state where the direction
can make no move every frame read has been passed to Send, and (b) from the state reached the
two loops of the direction can always go on, by the schedule `finish`, to a state where they
can make no move and every frame read before and since has been passed to Send; in both
cases these are all the frames of a source whose Recv never fails. -/
theorem tunnel_frames_in_order (fromMgr fromClient : List (Except GoError Frame))
    (mgrSend clientSend : Nat → Option GoError) (steps : List TunnelStep)
    (t0 t : TunnelState)
    (h0 : mgrProxy.Tunnel none fromMgr fromClient mgrSend clientSend = .ok t0)
    (hr : t0.run steps = some t) :
    (t.clientToMgr.passed <+: t.clientToMgr.read ∧
      t.clientToMgr.read.map .ok <+: fromClient) ∧
    (t.mgrToClient.passed <+: t.mgrToClient.read ∧
      t.mgrToClient.read.map .ok <+: fromMgr) ∧
    (t.returned = true → t.allEnded = true) ∧
    ((steps.filter fun a => decide (a ≠ TunnelStep.cancel)).length + t.movesLeft
      ≤ 3 * (fromMgr.length + fromClient.length) + 5) ∧
    (TunnelStep.cancel ∉ steps → (∀ n, mgrSend n = none) →
      ((∀ a, t.step (.clientToMgr a) = none) →
        t.clientToMgr.passed = t.clientToMgr.read ∧
        ((∀ r ∈ fromClient, ∃ f, r = Except.ok f) →
          t.clientToMgr.passed.map .ok = fromClient)) ∧
      ∃ t2, t.run (t.clientToMgr.finish.map .clientToMgr) = some t2 ∧
        (∀ a, t2.step (.clientToMgr a) = none) ∧
        t.clientToMgr.read <+: t2.clientToMgr.read ∧
        t2.clientToMgr.passed = t2.clientToMgr.read ∧
        ((∀ r ∈ fromClient, ∃ f, r = Except.ok f) →
          t2.clientToMgr.passed.map .ok = fromClient)) ∧
    (TunnelStep.cancel ∉ steps → (∀ n, clientSend n = none) →
      ((∀ a, t.step (.mgrToClient a) = none) →
        t.mgrToClient.passed = t.mgrToClient.read ∧
        ((∀ r ∈ fromMgr, ∃ f, r = Except.ok f) → t.mgrToClient.passed.map .ok = fromMgr)) ∧
      ∃ t2, t.run (t.mgrToClient.finish.map .mgrToClient) = some t2 ∧
        (∀ a, t2.step (.mgrToClient a) = none) ∧
        t.mgrToClient.read <+: t2.mgrToClient.read ∧
        t2.mgrToClient.passed = t2.mgrToClient.read ∧
        ((∀ r ∈ fromMgr, ∃ f, r = Except.ok f) → t2.mgrToClient.passed.map .ok = fromMgr)) := by
  simp only [mgrProxy.Tunnel, Except.ok.injEq] at h0
  subst h0
  have hstart : TunnelState.Inv fromMgr fromClient mgrSend clientSend
      { ctxDone := false
        mgrToClient := Direction.start fromMgr clientSend false
        clientToMgr := Direction.start fromClient mgrSend true
        returned := false } :=
    ⟨Direction.start_inv _ _ _ _, Direction.start_inv _ _ _ _, by simp⟩
  obtain ⟨hinv, hctx⟩ := TunnelState.run_inv steps _ t hstart hr
  obtain ⟨tail1, hf1, -, -⟩ := hinv.clientToMgr.frames
  obtain ⟨rest1, hs1, -⟩ := hinv.clientToMgr.source
  obtain ⟨tail2, hf2, -, -⟩ := hinv.mgrToClient.frames
  obtain ⟨rest2, hs2, -⟩ := hinv.mgrToClient.source
  have hbound := TunnelState.run_movesLeft steps _ t hr
  refine ⟨⟨⟨_, by rw [hf1, List.append_assoc]⟩, ⟨rest1, hs1.symm⟩⟩,
    ⟨⟨_, by rw [hf2, List.append_assoc]⟩, ⟨rest2, hs2.symm⟩⟩, hinv.waited, ?_, ?_, ?_⟩
  · simp only [TunnelState.movesLeft, Direction.movesLeft, Direction.start,
      recvState.weight, sendState.weight, Bool.false_eq_true, if_false] at hbound ⊢
    omega
  · intro hn hm
    have hlive : t.ctxDone = false := hctx rfl hn
    have hI : Direction.Inv fromClient mgrSend false t.clientToMgr := hlive ▸ hinv.clientToMgr
    refine ⟨?_, ?_⟩
    · intro hq
      have hq1 : ∀ a, t.clientToMgr.step false a = none := by
        intro a
        have := hq a
        simp only [TunnelState.step, hlive] at this
        cases hd : t.clientToMgr.step false a with
        | none => rfl
        | some d => simp [hd] at this
      exact Direction.quiescent_passed hI hm hq1
    · obtain ⟨d2, h1, h2, h3, h4, h5⟩ := Direction.finish_delivers hI hm
      refine ⟨{ t with clientToMgr := d2 },
        TunnelState.run_clientToMgr _ t d2 (by rw [hlive]; exact h1), ?_, h3, h4, h5⟩
      intro a
      simp [TunnelState.step, hlive, h2 a]
  · intro hn hc
    have hlive : t.ctxDone = false := hctx rfl hn
    have hI : Direction.Inv fromMgr clientSend false t.mgrToClient := hlive ▸ hinv.mgrToClient
    refine ⟨?_, ?_⟩
    · intro hq
      have hq1 : ∀ a, t.mgrToClient.step false a = none := by
        intro a
        have := hq a
        simp only [TunnelState.step, hlive] at this
        cases hd : t.mgrToClient.step false a with
        | none => rfl
        | some d => simp [hd] at this
      exact Direction.quiescent_passed hI hc hq1
    · obtain ⟨d2, h1, h2, h3, h4, h5⟩ := Direction.finish_delivers hI hc
      refine ⟨{ t with mgrToClient := d2 },
        TunnelState.run_mgrToClient _ t d2 (by rw [hlive]; exact h1), ?_, h3, h4, h5⟩
      intro a
      simp [TunnelState.step, hlive, h2 a]

/-- No loop of `framesEnd` can move. -/
theorem framesEnd_quiescent : framesEnd.quiescent := by
  intro a ha
  cases a with
  | cancel => exact absurd rfl ha
  | mgrToClient a => cases a <;> rfl
  | clientToMgr a => cases a <;> rfl
  | wait => rfl

/-- Witness of C7: the caller sends `f1`, `f2`, `f3` while the manager sends `g1`; after the
interleaving `crossing` the manager has been passed `f1`, `f2`, `f3` in this order and the
caller `g1`, no loop can move, the bound on the moves is reached, and Tunnel has not returned;
and from the start the schedule `finish` of each direction delivers all its frames. -/
theorem tunnel_frames_in_order_witness :
    mgrProxy.Tunnel none [.ok "g1"] [.ok "f1", .ok "f2", .ok "f3"] (fun _ => none)
        (fun _ => none) = .ok framesStart ∧
      framesStart.run crossing = some framesEnd ∧
      framesEnd.clientToMgr.passed = ["f1", "f2", "f3"] ∧
      framesEnd.mgrToClient.passed = ["g1"] ∧
      framesEnd.returned = false ∧
      framesEnd.clientToMgr.passed <+: framesEnd.clientToMgr.read ∧
      framesEnd.clientToMgr.passed.map .ok
        = ([.ok "f1", .ok "f2", .ok "f3"] : List (Except GoError Frame)) ∧
      (crossing.filter fun a => decide (a ≠ TunnelStep.cancel)).length + framesEnd.movesLeft
        ≤ 3 * (1 + 3) + 5 ∧
      (∃ t2, framesStart.run (framesStart.clientToMgr.finish.map .clientToMgr) = some t2 ∧
        t2.clientToMgr.passed.map .ok
          = ([.ok "f1", .ok "f2", .ok "f3"] : List (Except GoError Frame))) ∧
      (∃ t2, framesStart.run (framesStart.mgrToClient.finish.map .mgrToClient) = some t2 ∧
        t2.mgrToClient.passed.map .ok = ([.ok "g1"] : List (Except GoError Frame))) := by
  have h := tunnel_frames_in_order [.ok "g1"] [.ok "f1", .ok "f2", .ok "f3"] (fun _ => none)
    (fun _ => none) crossing framesStart framesEnd rfl rfl
  have hs := tunnel_frames_in_order [.ok "g1"] [.ok "f1", .ok "f2", .ok "f3"] (fun _ => none)
    (fun _ => none) [] framesStart framesStart rfl rfl
  refine ⟨rfl, rfl, rfl, rfl, rfl, h.1.1, ?_, h.2.2.2.1, ?_, ?_⟩
  · exact ((h.2.2.2.2.1 (by decide) (fun _ => rfl)).1
      (fun a => framesEnd_quiescent (.clientToMgr a) (by simp))).2 (by simp)
  · obtain ⟨t2, h1, -, -, -, h5⟩ := (hs.2.2.2.2.1 (by simp) (fun _ => rfl)).2
    exact ⟨t2, h1, h5 (by simp)⟩
  · obtain ⟨t2, h1, -, -, -, h5⟩ := (hs.2.2.2.2.2 (by simp) (fun _ => rfl)).2
    exact ⟨t2, h1, h5 (by simp)⟩

/-- C11 fails on the code: when the service context's deadline is 20 and the caller's is the
earlier instant 10, `callCtx.Deadline` returns on the service context's deadline without
looking at the caller's and reports 20, which is not the minimum of the two. -/
theorem callCtx_Deadline_caller_earlier :
    callerEarlier.Context.Deadline = (20, true) ∧ callerEarlier.caller.Deadline = (10, true) ∧
      callerEarlier.Deadline = (20, true) ∧
      callerEarlier.Deadline ≠ (min 20 10, true) := by
  decide

/-- What `callCtx.Deadline` computes in the other cases, where it agrees with the earlier of
the two deadlines: it reports the deadline of the service context whenever that
context defines one, and otherwise what the caller's context reports: with neither deadline
defined the result has ok false; with only the caller's defined, the caller's; with the service
context's defined, the service context's, whether or not the caller defines one; so with both
defined the result is the minimum of the two when the service context's deadline `ds` is not
later than the caller's `dc`. -/
theorem callCtx_Deadline_prefers_service (ds dc : Int) (okc : Bool) (h : ds ≤ dc) :
    callCtx.Deadline { Context := { Deadline := (ds, false) }, caller := { Deadline := (dc, okc) } }
        = (dc, okc) ∧
      (callCtx.Deadline
        { Context := { Deadline := (ds, false) }, caller := { Deadline := (dc, false) } }).2
        = false ∧
      callCtx.Deadline { Context := { Deadline := (ds, true) }, caller := { Deadline := (dc, okc) } }
        = (ds, true) ∧
      callCtx.Deadline { Context := { Deadline := (ds, true) }, caller := { Deadline := (dc, true) } }
        = (min ds dc, true) := by
  refine ⟨rfl, rfl, rfl, ?_⟩
  simp [callCtx.Deadline, min_eq_left h]

/-- The cases of agreement on a service deadline 10 and a caller's deadline 20. -/
theorem callCtx_Deadline_prefers_service_witness :
    (10 : Int) ≤ 20 ∧
      callCtx.Deadline { Context := { Deadline := (10, true) }, caller := { Deadline := (20, true) } }
        = (min 10 20, true) ∧
      callCtx.Deadline { Context := { Deadline := (10, false) }, caller := { Deadline := (20, true) } }
        = (20, true) :=
  have h := callCtx_Deadline_prefers_service 10 20 true (by decide)
  ⟨by decide, h.2.2.2, h.1⟩

/-- C12: whatever the state of the proxy (coordinator client set or absent), the arguments and
the caller's stream, `mgrProxy.WatchLookupHost` and `mgrProxy.WatchLogLevel` return a fixed
error that is not nil, and `mgrProxy.CreateIntercept` and `mgrProxy.RemoveIntercept` return a nil
result with a fixed error that is not nil and names the connector operation to call instead.
None of them calls the coordinator client: with the client absent they return the same, where
a proxied subscription panics. -/
theorem mgrProxy_unproxied_fail_fast (p : mgrProxy) (arg : String)
    (srv : ServerStream String) :
    p.WatchLookupHost arg srv = some (.other ("must call manager.WatchLookupHost from an agent " ++
        "(intercepted Pod), not from a client (workstation)")) ∧
      p.WatchLogLevel () srv = some (.other ("must call manager.WatchLogLevel from an agent " ++
        "(intercepted Pod), not from a client (workstation)")) ∧
      p.CreateIntercept arg = (none, some (.other
        "must call connector.CreateIntercept instead of manager.CreateIntercept")) ∧
      p.RemoveIntercept arg = (none, some (.other
        "must call connector.RemoveIntercept instead of manager.RemoveIntercept")) ∧
      (proxyNil.client = none ∧
        proxyNil.WatchLookupHost arg srv = p.WatchLookupHost arg srv ∧
        proxyNil.WatchLogLevel () srv = p.WatchLogLevel () srv ∧
        proxyNil.CreateIntercept arg = p.CreateIntercept arg ∧
        proxyNil.RemoveIntercept arg = p.RemoveIntercept arg ∧
        proxyNil.WatchAgents arg srv = .panicked nilDereference) := by
  refine ⟨?_, ?_, rfl, rfl, rfl, rfl, rfl, rfl, rfl, rfl⟩
  · simp [mgrProxy.WatchLookupHost]
  · simp [mgrProxy.WatchLogLevel]

end Connector
